import Mathlib

/-!
Verification development for `booker.py` (Larhard/Booker), a booklet-printing
tool that orchestrates external PDF utilities.

The development is a shallow embedding of the program:

* pure helpers (`gen_raw_selection`, Python `range`, Python truthiness `or`,
  the `re.sub`-based output-path derivations, the `pdfinfo` output parser)
  are translated to Lean functions;
* the stateful pipeline (temporary-file lifecycle, external process calls,
  `try`/`finally` blocks) is embedded as explicit state passing over a
  filesystem model `FS`, with an environment `Env` acting as an oracle for
  the behavior of the external tools (exit status of each process call,
  number of per-page files produced by `pdfseparate`, page counts reported
  by `pdfinfo`).

Python-version note: the program dates from 2017 and uses
`collections.Iterable` (removed in Python 3.10), so the embedding follows
Python 3.6-era semantics.  In particular `re.sub` is modelled with the
documented pre-3.7 behavior that an empty match adjacent to a previous
non-empty match is not substituted again.  The `re.sub` patterns are
translated for newline-free subject strings (file paths and `pdfinfo`
output lines contain no newline; `.` in the patterns does not match one).
-/

/-! ## Pure helpers -/

/-- Python `str.lower`-style lowering of a string (ASCII, as the program
only compares ASCII extensions). -/
def pyLower (s : String) : String :=
  (s.toList.map Char.toLower).asString

/-- Characters matched by Python's `\s` on ASCII text. -/
def pyIsSpace (c : Char) : Bool :=
  c = ' ' ∨ c = '\t' ∨ c = '\n' ∨ c = '\r' ∨ c = '\x0b' ∨ c = '\x0c'

/-- Python truthiness-based `x or y` on optional strings: `None` and the
empty string are falsy. -/
def pyOrStr (x y : Option String) : Option String :=
  match x with
  | none => y
  | some s => if s = "" then y else some s

/-- Model of `gen_raw_selection` (booker.py lines 62-66): `None` stays `None`,
otherwise the indices are comma-joined. -/
def gen_raw_selection (selection : Option (List Int)) : Option String :=
  match selection with
  | none => none
  | some l => some (String.intercalate "," (l.map toString))

/-- Length of Python `range(start, stop, step)` (`step ≠ 0`); the standard
CPython formula `max(0, (stop - start + step ∓ 1) // step)`, with the
clamping to `0` performed by `Int.toNat`. -/
def pyRangeLen (start stop step : Int) : Nat :=
  (if 0 < step then (stop - start + step - 1) / step
   else (start - stop - step - 1) / (-step)).toNat

/-- Python `range(start, stop, step)` as a list (`step ≠ 0`). -/
def pyRange (start stop step : Int) : List Int :=
  (List.range (pyRangeLen start stop step)).map (fun (i : Nat) => start + step * (i : Int))

/-- Split a line at its first colon, as the `pdfinfo` line pattern
`^(?P<key>[^:]*):\s*(?P<value>.*)$` does: `none` when the line contains no
colon (the line is then "not recognized" and skipped). -/
def splitFirstColon : List Char → Option (List Char × List Char)
  | [] => none
  | c :: cs =>
    if c = ':' then some ([], cs)
    else (splitFirstColon cs).map (fun p => (c :: p.1, p.2))

/-- Split a path before its last dot: `some (stem, ext)` with `ext`
beginning with the final `'.'`, or `none` when the path has no dot.  This
is the decomposition performed by the greedy match of
`(.*)(\.[^.]*)` on a newline-free subject. -/
def lastDotSplit : List Char → Option (List Char × List Char)
  | [] => none
  | c :: cs =>
    match lastDotSplit cs with
    | some p => some (c :: p.1, p.2)
    | none => if c = '.' then some ([], c :: cs) else none

/-- Model of `re.sub(r"(.*)(\.[^.]*)", r"\1" + mark + r"\2", path)`
(booker.py lines 325-326, with `mark` = `"-odd"` / `"-even"`): insert
`mark` before the final extension; a path without a dot is unchanged
(the pattern then matches nowhere). -/
def subMark (mark path : String) : String :=
  match lastDotSplit path.toList with
  | some p => (p.1 ++ mark.toList ++ p.2).asString
  | none => path

/-- Model of `re.sub(r"(?:(.*)\.[^.]*|([^.]*))$", r"\1\2-book.pdf", path)`
(booker.py line 443, Python ≤3.6 `re.sub` semantics): the final extension
(if any) is replaced by `-book.pdf`; a dot-free path gets `-book.pdf`
appended. -/
def mainOutputName (path : String) : String :=
  match lastDotSplit path.toList with
  | some p => (p.1 ++ "-book.pdf".toList).asString
  | none => path ++ "-book.pdf"

/-- Model of `re.match(r".*\.pdf$", path, re.IGNORECASE)` (booker.py line 408) as a
suffix test on the lowered path. -/
def matchesPdfExt (path : String) : Bool :=
  ".pdf".toList.isSuffixOf (pyLower path).toList

/-- Model of `re.match(r".*\.(cpp|cxx)$", path, re.IGNORECASE)` (booker.py line 410). -/
def matchesCppExt (path : String) : Bool :=
  ".cpp".toList.isSuffixOf (pyLower path).toList ∨
    ".cxx".toList.isSuffixOf (pyLower path).toList

/-! ## `pdfinfo` output parsing (booker.py lines 218-266)

`pdfinfo` runs the external tool and parses its stdout line by line.  The
parsing logic is embedded here as a pure function on the list of output
lines.  The dictionary is modelled as a function from key to optional
value (later lines overwrite earlier ones, as for a Python dict). -/

/-- A typed value in the parsed `pdfinfo` record. -/
inductive PdfValue where
  /-- integer field (`Pages`, `Page rot`, `File size`) -/
  | int (n : Nat)
  /-- yes/no flag field -/
  | bool (b : Bool)
  /-- date field; `datetime.strptime` is modelled as keeping the raw text
      (no claim concerns date parsing) -/
  | date (raw : String)
  /-- any other field: the raw text -/
  | str (raw : String)
deriving DecidableEq, Repr

/-- Errors raised by the program: Python `AssertionError`, `ValueError`,
`RuntimeError` (from `execute`) and `NotImplementedError`. -/
inductive PyErr where
  | assertError
  | valueError
  | runtimeError
  | notImplementedError
deriving DecidableEq, Repr

/-- The parsed `pdfinfo` record. -/
def PdfDict : Type := String → Option PdfValue

instance : Inhabited PdfDict := ⟨fun _ => none⟩

/-- The empty record. -/
def emptyDict : PdfDict := fun _ => none

/-- Model of `result[key] = value`. -/
def dictSet (m : PdfDict) (k : String) (v : PdfValue) : PdfDict :=
  fun x => if x = k then some v else m x

/-- Model of `re.match(r"^(?P<value>\d+)\sbytes$", value)` for the `File size`
field: digits, one whitespace character, then exactly `bytes`. -/
def parseFileSize (value : String) : Option Nat :=
  let cs := value.toList
  let ds := cs.takeWhile Char.isDigit
  match ds, cs.dropWhile Char.isDigit with
  | [], _ => none
  | _ :: _, c :: rest =>
    if pyIsSpace c ∧ rest = "bytes".toList then
      some (ds.foldl (fun a c => 10 * a + (c.toNat - '0'.toNat)) 0)
    else none
  | _ :: _, [] => none

/-- Model of `re.match(r"^\\d+$", value)` followed by `int(value)`: defined iff the
value is one or more ASCII digits. -/
def pyParseNat (value : String) : Option Nat :=
  if value.toList ≠ [] ∧ value.toList.all Char.isDigit then
    some (value.toList.foldl (fun a c => 10 * a + (c.toNat - '0'.toNat)) 0)
  else none

/-- Process one line of `pdfinfo` output into the record (the body of the
`for` loop at booker.py lines 223-262).  A line without a colon does not
match the key/value pattern and is skipped (only logged).  The typed
coercions assert their patterns: `Pages`/`Page rot` must be all digits
(`pyParseNat` succeeds exactly on `^\d+$`), `File size` must match
`\d+\sbytes`, the flag fields must start with `yes` or `no`
(`re.match(r"(yes|no)", value)` is an unanchored prefix match) and are
`True` exactly when the value equals `"yes"`. -/
def parseLine (m : PdfDict) (line : String) : Except PyErr PdfDict :=
  match splitFirstColon line.toList with
  | none => .ok m
  | some kv =>
    let key := kv.1.asString
    let value := (kv.2.dropWhile pyIsSpace).asString
    if key = "Pages" ∨ key = "Page rot" then
      match pyParseNat value with
      | some n => .ok (dictSet m key (.int n))
      | none => .error .assertError
    else if key = "File size" then
      match parseFileSize value with
      | some n => .ok (dictSet m key (.int n))
      | none => .error .assertError
    else if key = "Tagged" ∨ key = "UserProperties" ∨ key = "Suspects" ∨
        key = "JavaScript" ∨ key = "Encrypted" ∨ key = "Optimized" then
      if "yes".toList.isPrefixOf value.toList ∨ "no".toList.isPrefixOf value.toList then
        .ok (dictSet m key (.bool (value = "yes")))
      else .error .assertError
    else if key = "CreationDate" ∨ key = "ModDate" then
      .ok (dictSet m key (.date value))
    else .ok (dictSet m key (.str value))

/-- Parse the full `pdfinfo` output (booker.py lines 221-266): fold the
line parser over the lines, then `assert "Pages" in result`. -/
def pdfinfoParse (lines : List String) : Except PyErr PdfDict := do
  let m ← lines.foldlM parseLine emptyDict
  if (m "Pages").isSome then pure m else .error .assertError

/-- Look up one key in the parsed record. -/
def pdfinfoLookup (lines : List String) (key : String) :
    Except PyErr (Option PdfValue) :=
  (pdfinfoParse lines).map (fun m => m key)

/-- Computes `True` iff a successful parse contains the `Pages` key (vacuously
`True` on a failed parse); used to state that parsing cannot succeed with
the page count absent. -/
def parsedHasPages (lines : List String) : Bool :=
  match pdfinfoParse lines with
  | .ok m => (m "Pages").isSome
  | .error _ => true

/-! ## Effect model

The program's side effects are a strictly sequential chain of external
process invocations with file-based handoff.  `FS` tracks

* `files`: the temporary files currently existing (those created by
  `mktemp` and the per-page files written by `pdfseparate`; output files
  written at caller-supplied paths are not temporary and are tracked in
  the `written` log instead);
* `counter`: the supply of fresh `mktemp` names;
* `calls`: how many external processes have been started (index into the
  oracle);
* `written`: ghost log of output paths successfully produced by the
  external tools;
* `selects`: ghost log of the page extractions performed by `pdfselect`
  (source PDF, destination PDF, 1-based page indices in request order).

`Env` is the oracle for the external world: `execOk i` is the success of
the `i`-th process call, `sepProduced i` how many per-page files the
`pdfseparate` started as call `i` manages to write (the model caps it at
the document's page count), and `pages p` the page count `pdfinfo`
reports for the PDF at `p`. -/

/-- A file name: a caller-supplied path, a `mktemp` result
(`/tmp/booker-<id><suffix>`), or a per-page file produced from the
`pdfselect` naming template (`<base>-<idx>.pdf`). -/
inductive FileName where
  | user (path : String)
  | temp (id : Nat) (suffix : String)
  | page (base : Nat) (idx : Int)
deriving DecidableEq, Repr

/-- Concrete path of a file name, used when building command lines. -/
def FileName.render : FileName → String
  | .user s => s
  | .temp id suffix => "/tmp/booker-" ++ toString id ++ suffix
  | .page base idx =>
      "/tmp/booker-" ++ toString base ++ "-page-" ++ toString idx ++ ".pdf"

/-- The `mktemp` id underlying a temporary or per-page file name. -/
def FileName.tempId : FileName → Option Nat
  | .user _ => none
  | .temp id _ => some id
  | .page base _ => some base

/-- Filesystem / trace state. -/
structure FS where
  files : List FileName
  counter : Nat
  calls : Nat
  written : List FileName
  selects : List (FileName × FileName × List Int)
deriving Repr, DecidableEq

/-- Well-formedness: every existing temporary was created by an already
consumed `mktemp` id. -/
def FSok (fs : FS) : Prop :=
  ∀ f ∈ fs.files, ∀ i, f.tempId = some i → i < fs.counter

/-- The program monad: state passing over `FS` with Python-exception
propagation.  The state survives an exception (files already created stay
on disk), which is what makes `try`/`finally` cleanup meaningful. -/
def M (α : Type) : Type := FS → Except PyErr α × FS

instance : Monad M where
  pure a := fun fs => (.ok a, fs)
  bind m f := fun fs =>
    match m fs with
    | (.ok a, fs1) => f a fs1
    | (.error e, fs1) => (.error e, fs1)

/-- Raise a Python exception. -/
def throwM {α : Type} (e : PyErr) : M α := fun fs => (.error e, fs)

/-- Lift a pure `Except` computation (e.g. object construction). -/
def liftE {α : Type} (x : Except PyErr α) : M α := fun fs => (x, fs)

/-- Python `assert c`: raise `AssertionError` unless `c` holds. -/
def assertM (c : Prop) [Decidable c] : M Unit :=
  if c then pure () else throwM .assertError

/-- Python `try: body finally: fin`: the finalizer runs on both exits;
an exception in the finalizer replaces the body's outcome. -/
def tryFinallyM {α : Type} (body : M α) (fin : M Unit) : M α := fun fs =>
  match body fs with
  | (r, fs1) =>
    match fin fs1 with
    | (.ok _, fs2) => (r, fs2)
    | (.error e, fs2) => (.error e, fs2)

/-- Model of `mktemp` (booker.py lines 69-78): create and return a fresh temporary
file. -/
def mtemp (suffix : String) : M FileName := fun fs =>
  (.ok (.temp fs.counter suffix),
   { fs with counter := fs.counter + 1,
             files := .temp fs.counter suffix :: fs.files })

/-- Model of `os.remove`: delete the file, raising if it does not exist. -/
def osRemove (p : FileName) : M Unit := fun fs =>
  if p ∈ fs.files then
    (.ok (), { fs with files := fs.files.filter (fun f => !(f = p : Bool)) })
  else (.error .runtimeError, fs)

/-- Model of `os.path.exists` (restricted to the tracked temporaries, which is the
only use in the program). -/
def osExists (p : FileName) : M Bool := fun fs =>
  (.ok (decide (p ∈ fs.files)), fs)

/-- Files written by an external tool (`pdfseparate`'s per-page files). -/
def addFiles (l : List FileName) : M Unit := fun fs =>
  (.ok (), { fs with files := l ++ fs.files })

/-- Ghost log: an output file was produced at `p`. -/
def markWritten (p : FileName) : M Unit := fun fs =>
  (.ok (), { fs with written := fs.written ++ [p] })

/-- Ghost log: pages `sel` of `inP` were united into `outP`. -/
def recordSelect (inP outP : FileName) (sel : List Int) : M Unit := fun fs =>
  (.ok (), { fs with selects := fs.selects ++ [(inP, outP, sel)] })

/-- Current process-call index (used to consult the oracle). -/
def getCalls : M Nat := fun fs => (.ok fs.calls, fs)

/-- The external world, as an oracle. -/
structure Env where
  execOk : Nat → Bool
  sepProduced : Nat → Nat
  pages : FileName → Nat

/-- Model of `execute` (booker.py lines 81-100): start the external process; raise
`RuntimeError` on a nonzero exit status.  The command line `argv` is built
faithfully by the callers but the oracle alone decides the outcome. -/
def execute (env : Env) (argv : List String) : M Unit := fun fs =>
  ((if env.execOk fs.calls then .ok () else .error .runtimeError),
   { fs with calls := fs.calls + 1 })

/-- Model of `Paper` (booker.py lines 45-59). -/
structure Paper where
  size : String

/-- Model of `Paper.upper`. -/
def Paper.upper (p : Paper) : String := (p.size.toList.map Char.toUpper).asString

/-- Model of `Paper.latex`. -/
def Paper.latex (p : Paper) : String := p.size ++ "paper"

/-- Command line of `pdfjam` (booker.py lines 152-170), including the
effective selection `raw_selection or gen_raw_selection(selection)`. -/
def pdfjamArgs (inP outP : String) (selection : Option (List Int))
    (raw_selection : Option String) (landscape : Bool)
    (margins : Option (List Int)) (paper : Paper) : List String :=
  let raw := pyOrStr raw_selection (gen_raw_selection selection)
  ["pdfjam", inP] ++
    (match raw with | some r => [r] | none => []) ++
    (if landscape then ["--landscape"] else []) ++
    (match margins with
     | some ms =>
        ["--trim", String.intercalate " " (ms.map (fun k => toString (-k) ++ "mm"))]
     | none => []) ++
    ["--paper", paper.latex] ++ ["-o", outP]

/-- Model of `pdfjam` (booker.py lines 152-172). -/
def pdfjam (env : Env) (inP outP : FileName) (selection : Option (List Int))
    (raw_selection : Option String) (landscape : Bool)
    (margins : Option (List Int)) (paper : Paper) : M Unit := do
  execute env (pdfjamArgs inP.render outP.render selection raw_selection
    landscape margins paper)
  markWritten outP

/-- Command line of `enscript` (booker.py lines 107-123). -/
def enscriptArgs (inP psP : String) (language : Option String) (paper : Paper)
    (font : Option String) (margins : Option (List Int)) : List String :=
  ["enscript"] ++
    (match language with | some l => ["-E", l] | none => []) ++
    ["-M", paper.upper] ++
    (match font with | some f => ["-f", f] | none => []) ++
    (match margins with
     | some ms =>
        ["--margins", String.intercalate ":" (ms.map toString)]
     | none => []) ++
    [inP] ++ ["-o", psP]

/-- Model of `enscript` (booker.py lines 103-132): render to a temporary PostScript
file, convert it with `ps2pdf`, removing the PostScript file on every
exit. -/
def enscript (env : Env) (inP outP : FileName) (language : Option String)
    (paper : Paper) (font : Option String) (margins : Option (List Int)) :
    M Unit := do
  let ps ← mtemp ".ps"
  tryFinallyM
    (do
      execute env (enscriptArgs inP.render ps.render language paper font margins)
      execute env ["ps2pdf", ps.render, outP.render]
      markWritten outP)
    (osRemove ps)

/-- Model of `pdfbook` (booker.py lines 135-149). -/
def pdfbook (env : Env) (inP outP : FileName) (short_edge frame : Bool)
    (paper : Paper) : M Unit := do
  execute env
    (["pdfbook"] ++
      (if short_edge then ["--short-edge"] else []) ++
      (if frame then ["--frame", "true"] else []) ++
      ["--paper", paper.latex] ++ [inP.render] ++ ["-o", outP.render])
  markWritten outP

/-- Model of `pdfseparate` (booker.py lines 175-180).  The external tool writes the
per-page files `template % 1 .. template % k` before exiting, where
`k` is at most the page count of the document (oracle-chosen, so a failing
run may have produced only a prefix of the pages). -/
def pdfseparate (env : Env) (inP : FileName) (baseId : Nat) : M Unit := do
  let i ← getCalls
  addFiles ((List.range (min (env.sepProduced i) (env.pages inP))).map
    (fun (d : Nat) => FileName.page baseId ((d : Int) + 1)))
  execute env ["pdfseparate", inP.render,
    FileName.render (.temp baseId "-page") ++ "-%d.pdf"]

/-- Model of `pdfunite` (booker.py lines 183-188). -/
def pdfunite (env : Env) (inPaths : List FileName) (outP : FileName) :
    M Unit := do
  execute env (["pdfunite"] ++ inPaths.map FileName.render ++ [outP.render])
  markWritten outP

/-- Model of `pdfinfo` as an operation (booker.py lines 218-266): run the external
tool, then return the parsed page count.  The parsing itself is embedded
as the pure `pdfinfoParse`; here the parsed `Pages` field is supplied by
the oracle (`env.pages`), and a tool or parse failure is subsumed by the
`execute` oracle. -/
def pdfinfoPages (env : Env) (p : FileName) : M Nat := do
  execute env ["pdfinfo", p.render]
  pure (env.pages p)

/-- The loop in `pdfselect`'s `finally` (booker.py lines 212-215): for
each page index of the source document, remove the per-page file if it
exists. -/
def cleanupPages (baseId : Nat) : List Nat → M Unit
  | [] => pure ()
  | i :: rest => do
    let ex ← osExists (.page baseId ((i : Int) + 1))
    if ex then osRemove (.page baseId ((i : Int) + 1)) else pure ()
    cleanupPages baseId rest

/-- Model of `pdfselect` (booker.py lines 191-215): read the page count, split the
source into per-page files under a fresh naming template, unite the
selected pages (in the caller's order) into `outP`, and in the `finally`
remove the template base file and every per-page file that exists. -/
def pdfselect (env : Env) (inP outP : FileName) (selection : List Int) :
    M Unit := do
  let pages ← pdfinfoPages env inP
  let base ← mtemp "-page"
  let baseId := (base.tempId).getD 0
  tryFinallyM
    (do
      pdfseparate env inP baseId
      let selected := selection.map (fun k => FileName.page baseId k)
      pdfunite env selected outP
      recordSelect inP outP selection)
    (do
      osRemove base
      cleanupPages baseId (List.range pages))

/-! ## File variants (booker.py lines 349-416) -/

/-- The `margins` constructor argument: a single number or a sequence. -/
inductive MarginsArg where
  | num (m : Int)
  | seq (l : List Int)
deriving DecidableEq, Repr

/-- The state stored by `File.__init__`. -/
structure FileData where
  path : String
  selection : Option (List Int)
  raw_selection : Option String
  margins : Option (List Int)
deriving DecidableEq, Repr

/-- Model of `File.__init__` (booker.py lines 350-364): the effective raw selection
is `raw_selection or gen_raw_selection(selection)`; a non-iterable margins
value is broadcast to a 4-tuple, and a margins vector whose length is not
4 raises `ValueError`. -/
def mkFileData (path : String) (selection : Option (List Int))
    (raw_selection : Option String) (margins : Option MarginsArg) :
    Except PyErr FileData :=
  let raw := pyOrStr raw_selection (gen_raw_selection selection)
  match margins with
  | none => .ok ⟨path, selection, raw, none⟩
  | some m =>
    let ms : List Int :=
      match m with
      | .num x => [x, x, x, x]
      | .seq l => l
    if ms.length ≠ 4 then .error .valueError
    else .ok ⟨path, selection, raw, some ms⟩

/-- Model of `CPPFile.__init__` (booker.py lines 386-390): the base constructor,
then `ValueError` if the effective raw selection is not `None`. -/
def mkCppFileData (path : String) (selection : Option (List Int))
    (raw_selection : Option String) (margins : Option MarginsArg) :
    Except PyErr FileData := do
  let fd ← mkFileData path selection raw_selection margins
  if fd.raw_selection.isSome then .error .valueError
  else pure fd

/-- A constructed `File` object: the concrete variant plus its state. -/
inductive FileK where
  | pdfF (fd : FileData)
  | cppF (fd : FileData)
deriving DecidableEq, Repr

/-- Model of `get_file` (booker.py lines 405-416): variant dispatch on the
(case-insensitive) extension; the two patterns are mutually exclusive, so
the sequential `if`s behave as an `if`/`elif`; an unrecognized extension
raises `ValueError`. -/
def get_file (path : String) (raw_selection : Option String)
    (margins : Option MarginsArg) : Except PyErr FileK :=
  if matchesPdfExt path then
    (mkFileData path none raw_selection margins).map .pdfF
  else if matchesCppExt path then
    (mkCppFileData path none raw_selection margins).map .cppF
  else .error .valueError

/-- Model of `PDFFile.generate` / `CPPFile.generate` (booker.py lines 380-382 and
392-402): produce the normalized content PDF at `out` and return the
1-tuple `(out,)`. -/
def fileGenerate (env : Env) : FileK → FileName → M (List FileName)
  | .pdfF fd, out => do
    pdfjam env (.user fd.path) out none fd.raw_selection false fd.margins ⟨"a5"⟩
    pure [out]
  | .cppF fd, out => do
    enscript env (.user fd.path) out (some "cpp") ⟨"a5"⟩ (some "Courier8")
      fd.margins
    pure [out]

/-! ## Book variants (booker.py lines 279-346) -/

/-- Model of `Book.generate` (booker.py lines 297-315): generate the content into a
temporary PDF, assert the returned tuple, impose it with `pdfbook`
(short-edge, frame, a4), removing the temporary content PDF on every
exit; return `(path,)`. -/
def bookGenerate (env : Env) (content : FileK) (path : FileName) :
    M (List FileName) := do
  let content_path ← mtemp ".pdf"
  tryFinallyM
    (do
      let res ← fileGenerate env content content_path
      assertM (res = [content_path])
      pdfbook env content_path path true true ⟨"a4"⟩)
    (osRemove content_path)
  pure [path]

/-- Model of `SinglePageBook.generate` (booker.py lines 324-346): the `odd_path`
and `even_path` parameters are immediately overwritten by the
`-odd`/`-even` derivations from `path`; the inner double-sided book is
generated into a temporary booklet PDF, its page count is read and
asserted even, the odd pages `range(1, pages_count, 2)` are extracted to
the odd path and the even pages `range(pages_count, 1, -2)` (reversed) to
the even path; the temporary booklet PDF is removed on every exit and
both paths are returned. -/
def singlePageBookGenerate (env : Env) (content : FileK) (path : String)
    (odd_path even_path : Option String) : M (List FileName) :=
  let odd_path := subMark "-odd" path
  let even_path := subMark "-even" path
  do
    let book_path ← mtemp ".pdf"
    tryFinallyM
      (do
        let res ← bookGenerate env content book_path
        assertM (res = [book_path])
        let pages_count ← pdfinfoPages env book_path
        assertM (pages_count % 2 = 0)
        pdfselect env book_path (.user odd_path)
          (pyRange 1 (pages_count : Int) 2)
        pdfselect env book_path (.user even_path)
          (pyRange (pages_count : Int) 1 (-2)))
      (osRemove book_path)
    pure [.user odd_path, .user even_path]

/-! ## CLI driver (booker.py lines 419-471)

Only the non-printing path (`options.print is None`) is modelled; the
interactive printing branch (lines 448-471) is out of scope of the
claims.  Argument parsing itself is plumbing; `mainRun` starts from the
parsed options. -/

/-- Book-mode dispatch: `Book if options.double_paged else SinglePageBook`. -/
inductive BookKind where
  | double
  | single
deriving DecidableEq, Repr

/-- Dispatch of `book.generate(path)` for the selected mode (the single-page book is
called with only the positional `path`, so `odd_path`/`even_path` default
to `None`). -/
def bookGenerateK (env : Env) : BookKind → FileK → String → M (List FileName)
  | .double, fk, path => bookGenerate env fk (.user path)
  | .single, fk, path => singlePageBookGenerate env fk path none none

/-- The per-file loop of `main` (booker.py lines 438-447, non-printing
mode): construct the `File`, derive the default output name, generate,
and collect the printed result paths. -/
def mainLoop (env : Env) (kind : BookKind) (select : Option String)
    (margins : Option Int) : List String → M (List FileName)
  | [] => pure []
  | path :: rest => do
    let file ← liftE (get_file path select (margins.map .num))
    let out := mainOutputName path
    let res ← bookGenerateK env kind file out
    let more ← mainLoop env kind select margins rest
    pure (res ++ more)

/-- Model of `main` body (booker.py lines 419-447) after argument parsing, in the
non-printing mode: `--select` with more than one input raises
`ValueError` before any file is processed; then each input is processed
in order and the resulting output paths are printed (collected). -/
def mainRun (env : Env) (files : List String) (double_paged : Bool)
    (select : Option String) (margins : Option Int) : M (List FileName) :=
  (if select.isSome ∧ files.length > 1 then throwM .valueError
   else pure ()) >>= fun _ =>
    mainLoop env (if double_paged then BookKind.double else BookKind.single)
      select margins files

/-- The all-empty initial state (no temporaries on disk). -/
def fs0 : FS := ⟨[], 0, 0, [], []⟩

/-! ## Environments used to exercise the model on concrete runs -/

/-- An external world in which every process call succeeds, `pdfseparate`
always produces all pages, and every PDF reports 4 pages. -/
def envW : Env := ⟨fun _ => true, fun _ => 1000, fun _ => 4⟩

/-- An external world with failing process calls, partial `pdfseparate`
output and an odd page count. -/
def envOdd : Env := ⟨fun _ => true, fun _ => 2, fun _ => 3⟩

/-- An external world where the third and later process calls fail and
`pdfseparate` produces only one page file. -/
def envFail : Env := ⟨fun i => decide (i < 2), fun _ => 1, fun _ => 5⟩

/-! ## Basic lemmas about the monad and the primitives -/

theorem M_bind_ok {α β : Type} {m : M α} {f : α → M β} {fs fs1 : FS} {a : α}
    (h : m fs = (.ok a, fs1)) : (m >>= f) fs = f a fs1 := by
  show (match m fs with
    | (.ok a, fs1) => f a fs1
    | (.error e, fs1) => (.error e, fs1)) = f a fs1
  rw [h]

theorem M_bind_err {α β : Type} {m : M α} {f : α → M β} {fs fs1 : FS}
    {e : PyErr} (h : m fs = (.error e, fs1)) :
    (m >>= f) fs = (.error e, fs1) := by
  show (match m fs with
    | (.ok a, fs1) => f a fs1
    | (.error e, fs1) => (.error e, fs1)) = (.error e, fs1)
  rw [h]

theorem M_pure_app {α : Type} (a : α) (fs : FS) :
    (pure a : M α) fs = (.ok a, fs) := rfl

theorem tryFinallyM_eq {α : Type} {body : M α} {fin : M Unit}
    {fs fs1 fs2 : FS} {r : Except PyErr α}
    (hb : body fs = (r, fs1)) (hf : fin fs1 = (.ok (), fs2)) :
    tryFinallyM body fin fs = (r, fs2) := by
  unfold tryFinallyM
  rw [hb]
  dsimp only
  rw [hf]

theorem mtemp_app (suffix : String) (fs : FS) :
    mtemp suffix fs = (.ok (.temp fs.counter suffix),
      { fs with counter := fs.counter + 1,
                files := .temp fs.counter suffix :: fs.files }) := rfl

theorem execute_ok {env : Env} {fs : FS} (argv : List String)
    (h : env.execOk fs.calls = true) :
    execute env argv fs = (.ok (), { fs with calls := fs.calls + 1 }) := by
  unfold execute
  rw [h]
  simp

theorem execute_err {env : Env} {fs : FS} (argv : List String)
    (h : env.execOk fs.calls = false) :
    execute env argv fs = (.error .runtimeError, { fs with calls := fs.calls + 1 }) := by
  unfold execute
  rw [h]
  simp

theorem osRemove_mem {p : FileName} {fs : FS} (h : p ∈ fs.files) :
    osRemove p fs =
      (.ok (), { fs with files := fs.files.filter (fun f => !(f = p : Bool)) }) := by
  unfold osRemove
  rw [if_pos h]

theorem osExists_app (p : FileName) (fs : FS) :
    osExists p fs = (.ok (decide (p ∈ fs.files)), fs) := rfl

theorem addFiles_app (l : List FileName) (fs : FS) :
    addFiles l fs = (.ok (), { fs with files := l ++ fs.files }) := rfl

theorem markWritten_app (p : FileName) (fs : FS) :
    markWritten p fs = (.ok (), { fs with written := fs.written ++ [p] }) := rfl

theorem recordSelect_app (inP outP : FileName) (sel : List Int) (fs : FS) :
    recordSelect inP outP sel fs =
      (.ok (), { fs with selects := fs.selects ++ [(inP, outP, sel)] }) := rfl

theorem getCalls_app (fs : FS) : getCalls fs = (.ok fs.calls, fs) := rfl

theorem throwM_app {α : Type} (e : PyErr) (fs : FS) :
    (throwM e : M α) fs = (.error e, fs) := rfl

theorem liftE_app {α : Type} (x : Except PyErr α) (fs : FS) :
    liftE x fs = (x, fs) := rfl

/-- A computation of the shape `m >>= fun _ => pure b` can only succeed
with the value `b`. -/
theorem M_seq_pure_ok {α β : Type} {m : M α} {b : β} {fs fs1 : FS} {r : β}
    (h : (m >>= fun _ => pure b) fs = (.ok r, fs1)) : r = b := by
  rcases hm : m fs with ⟨res, fs2⟩
  cases res with
  | ok a =>
    rw [M_bind_ok hm] at h
    cases h
    rfl
  | error e =>
    rw [M_bind_err hm] at h
    cases h

/-! ## `FSok` helpers -/

theorem FSok_fs0 : FSok fs0 := by
  intro f hf
  simp [fs0] at hf

theorem FSok_of {fs gs : FS} (h : FSok fs) (hfiles : gs.files = fs.files)
    (hc : fs.counter ≤ gs.counter) : FSok gs := by
  intro f hf i hi
  rw [hfiles] at hf
  exact lt_of_lt_of_le (h f hf i hi) hc

theorem FSok_mtemp {fs : FS} (h : FSok fs) (suffix : String) :
    FSok { fs with counter := fs.counter + 1,
                   files := .temp fs.counter suffix :: fs.files } := by
  intro f hf i hi
  rcases List.mem_cons.mp hf with h1 | h1
  · subst h1
    simp [FileName.tempId] at hi
    show i < fs.counter + 1
    omega
  · exact lt_trans (h f h1 i hi) (Nat.lt_succ_self _)

/-- Removing the head temporary created by the last `mktemp` restores the
file list: no older file can be equal to it. -/
theorem filter_remove_fresh {fs : FS} (h : FSok fs) (suffix : String) :
    (fs.files.filter
      (fun f => !(f = FileName.temp fs.counter suffix : Bool))) = fs.files := by
  rw [List.filter_eq_self]
  intro f hf
  simp only [Bool.not_eq_true']
  apply decide_eq_false
  intro he
  have := h f hf fs.counter (by rw [he]; rfl)
  omega

/-! ## Frame property: an operation neither leaks nor destroys files -/

/-- Frame property: `m` is a frame operation: on every outcome (success or exception) it
leaves the set of existing files unchanged and never reuses `mktemp`
ids. -/
def frame {α : Type} (m : M α) : Prop :=
  ∀ fs, FSok fs → (m fs).2.files = fs.files ∧ fs.counter ≤ (m fs).2.counter

theorem frame_FSok {α : Type} {m : M α} (hm : frame m) {fs : FS}
    (h : FSok fs) : FSok (m fs).2 :=
  FSok_of h (hm fs h).1 (hm fs h).2

theorem frame_pure {α : Type} (a : α) : frame (pure a : M α) := by
  intro fs _
  exact ⟨rfl, le_refl _⟩

theorem frame_throw {α : Type} (e : PyErr) : frame (throwM e : M α) := by
  intro fs _
  exact ⟨rfl, le_refl _⟩

theorem frame_bind {α β : Type} {m : M α} {f : α → M β} (hm : frame m)
    (hf : ∀ a, frame (f a)) : frame (m >>= f) := by
  intro fs hok
  rcases hres : m fs with ⟨res, fs1⟩
  have h1 : fs1.files = fs.files ∧ fs.counter ≤ fs1.counter := by
    have := hm fs hok
    rw [hres] at this
    exact this
  have hok1 : FSok fs1 := FSok_of hok h1.1 h1.2
  cases res with
  | ok a =>
    rw [M_bind_ok hres]
    have h2 := hf a fs1 hok1
    exact ⟨h2.1.trans h1.1, le_trans h1.2 h2.2⟩
  | error e =>
    rw [M_bind_err hres]
    exact h1

theorem frame_tryFinally {α : Type} {body : M α} {fin : M Unit}
    (hb : frame body) (hf : frame fin) : frame (tryFinallyM body fin) := by
  intro fs hok
  rcases hres : body fs with ⟨res, fs1⟩
  have h1 : fs1.files = fs.files ∧ fs.counter ≤ fs1.counter := by
    have := hb fs hok
    rw [hres] at this
    exact this
  have hok1 : FSok fs1 := FSok_of hok h1.1 h1.2
  rcases hfin : fin fs1 with ⟨resf, fs2⟩
  have h2 : fs2.files = fs1.files ∧ fs1.counter ≤ fs2.counter := by
    have := hf fs1 hok1
    rw [hfin] at this
    exact this
  have hout : (tryFinallyM body fin fs).2 = fs2 := by
    unfold tryFinallyM
    rw [hres]
    dsimp only
    rw [hfin]
    cases resf <;> rfl
  rw [hout]
  exact ⟨h2.1.trans h1.1, le_trans h1.2 h2.2⟩

theorem frame_ite {α : Type} (c : Prop) [Decidable c] {m1 m2 : M α}
    (h1 : frame m1) (h2 : frame m2) : frame (if c then m1 else m2) := by
  by_cases h : c
  · rwa [if_pos h]
  · rwa [if_neg h]

theorem frame_execute (env : Env) (argv : List String) :
    frame (execute env argv) := by
  intro fs _
  unfold execute
  cases env.execOk fs.calls <;> exact ⟨rfl, le_refl _⟩

theorem frame_markWritten (p : FileName) : frame (markWritten p) := by
  intro fs _
  exact ⟨rfl, le_refl _⟩

theorem frame_recordSelect (inP outP : FileName) (sel : List Int) :
    frame (recordSelect inP outP sel) := by
  intro fs _
  exact ⟨rfl, le_refl _⟩

theorem frame_pdfjam (env : Env) (inP outP : FileName)
    (selection : Option (List Int)) (raw_selection : Option String)
    (landscape : Bool) (margins : Option (List Int)) (paper : Paper) :
    frame (pdfjam env inP outP selection raw_selection landscape margins paper) := by
  unfold pdfjam
  exact frame_bind (frame_execute _ _) (fun _ => frame_markWritten _)

theorem frame_pdfbook (env : Env) (inP outP : FileName) (se fr : Bool)
    (paper : Paper) : frame (pdfbook env inP outP se fr paper) := by
  unfold pdfbook
  exact frame_bind (frame_execute _ _) (fun _ => frame_markWritten _)

theorem frame_pdfinfoPages (env : Env) (p : FileName) :
    frame (pdfinfoPages env p) := by
  unfold pdfinfoPages
  exact frame_bind (frame_execute _ _) (fun _ => frame_pure _)

theorem frame_pdfunite (env : Env) (inPaths : List FileName) (outP : FileName) :
    frame (pdfunite env inPaths outP) := by
  unfold pdfunite
  exact frame_bind (frame_execute _ _) (fun _ => frame_markWritten _)

/-! ## The `pdfselect` cleanup loop -/

/-- The removal loop deletes exactly the per-page files with an index in
the traversed range and touches nothing else. -/
theorem cleanupPages_app (b : Nat) (is : List Nat) (fs : FS) :
    cleanupPages b is fs = (.ok (),
      { fs with files := fs.files.filter (fun f => decide (∀ i ∈ is, f ≠ FileName.page b ((i : Int) + 1))) }) := by
  induction is generalizing fs with
  | nil =>
    show (pure () : M Unit) fs = _
    rw [M_pure_app]
    simp
  | cons i rest ih =>
    rw [cleanupPages]
    rw [M_bind_ok (osExists_app _ _)]
    by_cases hm : FileName.page b ((i : Int) + 1) ∈ fs.files
    · rw [decide_eq_true hm, if_pos rfl, M_bind_ok (osRemove_mem hm)]
      show cleanupPages b rest _ = _
      rw [ih]
      simp only [List.filter_filter]
      have hl : List.filter (fun a => decide (∀ x ∈ rest, a ≠ FileName.page b ((x : Int) + 1)) && !decide (a = FileName.page b ((i : Int) + 1))) fs.files = List.filter (fun f => decide (∀ x ∈ i :: rest, f ≠ FileName.page b ((x : Int) + 1))) fs.files := by
        apply List.filter_congr
        intro f _
        by_cases hfp : f = FileName.page b ((i : Int) + 1) <;>
          simp [List.forall_mem_cons, hfp]
      rw [hl]
    · rw [decide_eq_false hm, if_neg (by simp), M_bind_ok (M_pure_app () _)]
      show cleanupPages b rest _ = _
      rw [ih]
      have hl : List.filter (fun f => decide (∀ x ∈ rest, f ≠ FileName.page b ((x : Int) + 1))) fs.files = List.filter (fun f => decide (∀ x ∈ i :: rest, f ≠ FileName.page b ((x : Int) + 1))) fs.files := by
        apply List.filter_congr
        intro f hf
        have hne : f ≠ FileName.page b ((i : Int) + 1) := by
          intro he
          exact hm (he ▸ hf)
        simp [List.forall_mem_cons, hne]
      rw [hl]

/-- A file already on disk before a `mktemp` cannot be a per-page file
derived from the fresh template. -/
theorem ne_page_fresh {b : Nat} {rest : List FileName}
    (hok : ∀ f ∈ rest, ∀ i, f.tempId = some i → i < b) {f : FileName}
    (hf : f ∈ rest) (x : Int) : f ≠ .page b x := by
  intro he
  have := hok f hf b (by rw [he]; rfl)
  omega

/-- Removing the naming-template base file keeps the per-page files and
all older files. -/
theorem pageFilter_base {b k : Nat} {rest : List FileName}
    (hok : ∀ f ∈ rest, ∀ i, f.tempId = some i → i < b) (suffix : String) :
    ((((List.range k).map (fun (d : Nat) => FileName.page b ((d : Int) + 1))) ++
        FileName.temp b suffix :: rest).filter
      (fun f => !(f = FileName.temp b suffix : Bool))) =
      ((List.range k).map (fun (d : Nat) => FileName.page b ((d : Int) + 1))) ++ rest := by
  rw [List.filter_append]
  congr 1
  · rw [List.filter_eq_self]
    intro a ha
    rcases List.mem_map.mp ha with ⟨d, _, rfl⟩
    simp
  · show (FileName.temp b suffix :: rest).filter _ = rest
    rw [List.filter_cons]
    simp only [decide_True, Bool.not_true, decide_eq_true_eq]
    rw [if_neg (by simp)]
    rw [List.filter_eq_self]
    intro f hf
    have hne : f ≠ FileName.temp b suffix := by
      intro he
      have := hok f hf b (by rw [he]; rfl)
      omega
    simp [hne]

/-- The cleanup loop over all page indices of the source removes every
per-page file that was produced (`k ≤ N`) and keeps all older files. -/
theorem pageFilter_cleanup {b k N : Nat} (hk : k ≤ N) {rest : List FileName}
    (hok : ∀ f ∈ rest, ∀ i, f.tempId = some i → i < b) :
    ((((List.range k).map (fun (d : Nat) => FileName.page b ((d : Int) + 1))) ++ rest).filter
      (fun f => decide (∀ i ∈ List.range N, f ≠ FileName.page b ((i : Int) + 1)))) =
      rest := by
  rw [List.filter_append]
  have h1 : (((List.range k).map (fun (d : Nat) => FileName.page b ((d : Int) + 1))).filter
      (fun f => decide (∀ i ∈ List.range N, f ≠ FileName.page b ((i : Int) + 1)))) = [] := by
    rw [List.filter_eq_nil_iff]
    intro a ha
    rcases List.mem_map.mp ha with ⟨d, hd, rfl⟩
    simp only [decide_eq_true_eq]
    intro hall
    exact hall d (List.mem_range.mpr (lt_of_lt_of_le (List.mem_range.mp hd) hk)) rfl
  have h2 : (rest.filter
      (fun f => decide (∀ i ∈ List.range N, f ≠ FileName.page b ((i : Int) + 1)))) = rest := by
    rw [List.filter_eq_self]
    intro f hf
    simp only [decide_eq_true_eq]
    intro i _
    exact ne_page_fresh hok hf _
  rw [h1, h2, List.nil_append]

/-! ## Behavior of `pdfselect` -/

theorem pdfinfoPages_ok {env : Env} (p : FileName) {fs : FS}
    (h : env.execOk fs.calls = true) :
    pdfinfoPages env p fs = (.ok (env.pages p), { fs with calls := fs.calls + 1 }) := by
  unfold pdfinfoPages
  rw [M_bind_ok (execute_ok _ h)]
  rfl

/-- On an all-successful run, `pdfselect` consumes three process calls and
one `mktemp` id, records the requested extraction, logs the output file,
and leaves the temporary files exactly as before. -/
theorem pdfselect_ok (env : Env) (inP outP : FileName) (sel : List Int)
    (fs : FS) (h0 : env.execOk fs.calls = true)
    (h1 : env.execOk (fs.calls + 1) = true)
    (h2 : env.execOk (fs.calls + 2) = true) (hok : FSok fs) :
    pdfselect env inP outP sel fs = (.ok (),
      ⟨fs.files, fs.counter + 1, fs.calls + 3, fs.written ++ [outP],
       fs.selects ++ [(inP, outP, sel)]⟩) := by
  unfold pdfselect
  rw [M_bind_ok (pdfinfoPages_ok inP h0)]
  dsimp only
  rw [M_bind_ok (mtemp_app "-page" _)]
  dsimp only [FileName.tempId, Option.getD]
  have hsep : pdfseparate env inP fs.counter
      ⟨FileName.temp fs.counter "-page" :: fs.files, fs.counter + 1,
       fs.calls + 1, fs.written, fs.selects⟩ = (.ok (),
      ⟨((List.range (min (env.sepProduced (fs.calls + 1)) (env.pages inP))).map (fun (d : Nat) => FileName.page fs.counter ((d : Int) + 1))) ++ FileName.temp fs.counter "-page" :: fs.files,
       fs.counter + 1, fs.calls + 2, fs.written, fs.selects⟩) := by
    unfold pdfseparate
    rw [M_bind_ok (getCalls_app _)]
    dsimp only
    rw [M_bind_ok (addFiles_app _ _)]
    dsimp only
    rw [execute_ok _ h1]
  have hunite : pdfunite env (sel.map (fun k => FileName.page fs.counter k)) outP
      ⟨((List.range (min (env.sepProduced (fs.calls + 1)) (env.pages inP))).map (fun (d : Nat) => FileName.page fs.counter ((d : Int) + 1))) ++ FileName.temp fs.counter "-page" :: fs.files,
       fs.counter + 1, fs.calls + 2, fs.written, fs.selects⟩ = (.ok (),
      ⟨((List.range (min (env.sepProduced (fs.calls + 1)) (env.pages inP))).map (fun (d : Nat) => FileName.page fs.counter ((d : Int) + 1))) ++ FileName.temp fs.counter "-page" :: fs.files,
       fs.counter + 1, fs.calls + 3, fs.written ++ [outP], fs.selects⟩) := by
    unfold pdfunite
    rw [M_bind_ok (execute_ok _ h2)]
    rfl
  have hbody : (pdfseparate env inP fs.counter >>= fun _ =>
      pdfunite env (sel.map (fun k => FileName.page fs.counter k)) outP >>= fun _ =>
      recordSelect inP outP sel)
      ⟨FileName.temp fs.counter "-page" :: fs.files, fs.counter + 1,
       fs.calls + 1, fs.written, fs.selects⟩ = (.ok (),
      ⟨((List.range (min (env.sepProduced (fs.calls + 1)) (env.pages inP))).map (fun (d : Nat) => FileName.page fs.counter ((d : Int) + 1))) ++ FileName.temp fs.counter "-page" :: fs.files,
       fs.counter + 1, fs.calls + 3, fs.written ++ [outP],
       fs.selects ++ [(inP, outP, sel)]⟩) := by
    rw [M_bind_ok hsep, M_bind_ok hunite]
    rfl
  have hmem : FileName.temp fs.counter "-page" ∈
      (((List.range (min (env.sepProduced (fs.calls + 1)) (env.pages inP))).map (fun (d : Nat) => FileName.page fs.counter ((d : Int) + 1))) ++ FileName.temp fs.counter "-page" :: fs.files) :=
    List.mem_append.mpr (Or.inr (List.mem_cons_self _ _))
  have hfin : (osRemove (FileName.temp fs.counter "-page") >>= fun _ =>
      cleanupPages fs.counter (List.range (env.pages inP)))
      ⟨((List.range (min (env.sepProduced (fs.calls + 1)) (env.pages inP))).map (fun (d : Nat) => FileName.page fs.counter ((d : Int) + 1))) ++ FileName.temp fs.counter "-page" :: fs.files,
       fs.counter + 1, fs.calls + 3, fs.written ++ [outP],
       fs.selects ++ [(inP, outP, sel)]⟩ = (.ok (),
      ⟨fs.files, fs.counter + 1, fs.calls + 3, fs.written ++ [outP],
       fs.selects ++ [(inP, outP, sel)]⟩) := by
    rw [M_bind_ok (osRemove_mem hmem)]
    dsimp only
    rw [pageFilter_base hok "-page"]
    rw [cleanupPages_app]
    rw [pageFilter_cleanup (min_le_right _ _) hok]
  exact tryFinallyM_eq hbody hfin

/-- Under every oracle (success, failure, or partial per-page output),
`pdfselect` leaves the temporary files exactly as it found them. -/
theorem frame_pdfselect (env : Env) (inP outP : FileName) (sel : List Int) :
    frame (pdfselect env inP outP sel) := by
  intro fs hok
  by_cases h0 : env.execOk fs.calls = true
  · by_cases h1 : env.execOk (fs.calls + 1) = true
    · by_cases h2 : env.execOk (fs.calls + 2) = true
      · rw [pdfselect_ok env inP outP sel fs h0 h1 h2 hok]
        exact ⟨rfl, Nat.le_succ _⟩
      · have heq : pdfselect env inP outP sel fs = (.error .runtimeError,
            ⟨fs.files, fs.counter + 1, fs.calls + 3, fs.written,
             fs.selects⟩) := by
          unfold pdfselect
          rw [M_bind_ok (pdfinfoPages_ok inP h0)]
          dsimp only
          rw [M_bind_ok (mtemp_app "-page" _)]
          dsimp only [FileName.tempId, Option.getD]
          have hsep : pdfseparate env inP fs.counter
              ⟨FileName.temp fs.counter "-page" :: fs.files, fs.counter + 1,
               fs.calls + 1, fs.written, fs.selects⟩ = (.ok (),
              ⟨((List.range (min (env.sepProduced (fs.calls + 1)) (env.pages inP))).map (fun (d : Nat) => FileName.page fs.counter ((d : Int) + 1))) ++ FileName.temp fs.counter "-page" :: fs.files,
               fs.counter + 1, fs.calls + 2, fs.written, fs.selects⟩) := by
            unfold pdfseparate
            rw [M_bind_ok (getCalls_app _)]
            dsimp only
            rw [M_bind_ok (addFiles_app _ _)]
            dsimp only
            rw [execute_ok _ h1]
          have huniteE : pdfunite env (sel.map (fun k => FileName.page fs.counter k)) outP
              ⟨((List.range (min (env.sepProduced (fs.calls + 1)) (env.pages inP))).map (fun (d : Nat) => FileName.page fs.counter ((d : Int) + 1))) ++ FileName.temp fs.counter "-page" :: fs.files,
               fs.counter + 1, fs.calls + 2, fs.written, fs.selects⟩ = (.error .runtimeError,
              ⟨((List.range (min (env.sepProduced (fs.calls + 1)) (env.pages inP))).map (fun (d : Nat) => FileName.page fs.counter ((d : Int) + 1))) ++ FileName.temp fs.counter "-page" :: fs.files,
               fs.counter + 1, fs.calls + 3, fs.written, fs.selects⟩) := by
            unfold pdfunite
            rw [M_bind_err (execute_err _ (Bool.not_eq_true _ ▸ h2))]
          have hbody : (pdfseparate env inP fs.counter >>= fun _ =>
              pdfunite env (sel.map (fun k => FileName.page fs.counter k)) outP >>= fun _ =>
              recordSelect inP outP sel)
              ⟨FileName.temp fs.counter "-page" :: fs.files, fs.counter + 1,
               fs.calls + 1, fs.written, fs.selects⟩ = (.error .runtimeError,
              ⟨((List.range (min (env.sepProduced (fs.calls + 1)) (env.pages inP))).map (fun (d : Nat) => FileName.page fs.counter ((d : Int) + 1))) ++ FileName.temp fs.counter "-page" :: fs.files,
               fs.counter + 1, fs.calls + 3, fs.written, fs.selects⟩) := by
            rw [M_bind_ok hsep, M_bind_err huniteE]
          have hmem : FileName.temp fs.counter "-page" ∈
              (((List.range (min (env.sepProduced (fs.calls + 1)) (env.pages inP))).map (fun (d : Nat) => FileName.page fs.counter ((d : Int) + 1))) ++ FileName.temp fs.counter "-page" :: fs.files) :=
            List.mem_append.mpr (Or.inr (List.mem_cons_self _ _))
          have hfin : (osRemove (FileName.temp fs.counter "-page") >>= fun _ =>
              cleanupPages fs.counter (List.range (env.pages inP)))
              ⟨((List.range (min (env.sepProduced (fs.calls + 1)) (env.pages inP))).map (fun (d : Nat) => FileName.page fs.counter ((d : Int) + 1))) ++ FileName.temp fs.counter "-page" :: fs.files,
               fs.counter + 1, fs.calls + 3, fs.written, fs.selects⟩ = (.ok (),
              ⟨fs.files, fs.counter + 1, fs.calls + 3, fs.written, fs.selects⟩) := by
            rw [M_bind_ok (osRemove_mem hmem)]
            dsimp only
            rw [pageFilter_base hok "-page"]
            rw [cleanupPages_app]
            rw [pageFilter_cleanup (min_le_right _ _) hok]
          exact tryFinallyM_eq hbody hfin
        rw [heq]
        exact ⟨rfl, Nat.le_succ _⟩
    · have heq : pdfselect env inP outP sel fs = (.error .runtimeError,
          ⟨fs.files, fs.counter + 1, fs.calls + 2, fs.written, fs.selects⟩) := by
        unfold pdfselect
        rw [M_bind_ok (pdfinfoPages_ok inP h0)]
        dsimp only
        rw [M_bind_ok (mtemp_app "-page" _)]
        dsimp only [FileName.tempId, Option.getD]
        have hsepE : pdfseparate env inP fs.counter
            ⟨FileName.temp fs.counter "-page" :: fs.files, fs.counter + 1,
             fs.calls + 1, fs.written, fs.selects⟩ = (.error .runtimeError,
            ⟨((List.range (min (env.sepProduced (fs.calls + 1)) (env.pages inP))).map (fun (d : Nat) => FileName.page fs.counter ((d : Int) + 1))) ++ FileName.temp fs.counter "-page" :: fs.files,
             fs.counter + 1, fs.calls + 2, fs.written, fs.selects⟩) := by
          unfold pdfseparate
          rw [M_bind_ok (getCalls_app _)]
          dsimp only
          rw [M_bind_ok (addFiles_app _ _)]
          dsimp only
          rw [execute_err _ (Bool.not_eq_true _ ▸ h1)]
        have hbody : (pdfseparate env inP fs.counter >>= fun _ =>
            pdfunite env (sel.map (fun k => FileName.page fs.counter k)) outP >>= fun _ =>
            recordSelect inP outP sel)
            ⟨FileName.temp fs.counter "-page" :: fs.files, fs.counter + 1,
             fs.calls + 1, fs.written, fs.selects⟩ = (.error .runtimeError,
            ⟨((List.range (min (env.sepProduced (fs.calls + 1)) (env.pages inP))).map (fun (d : Nat) => FileName.page fs.counter ((d : Int) + 1))) ++ FileName.temp fs.counter "-page" :: fs.files,
             fs.counter + 1, fs.calls + 2, fs.written, fs.selects⟩) := by
          rw [M_bind_err hsepE]
        have hmem : FileName.temp fs.counter "-page" ∈
            (((List.range (min (env.sepProduced (fs.calls + 1)) (env.pages inP))).map (fun (d : Nat) => FileName.page fs.counter ((d : Int) + 1))) ++ FileName.temp fs.counter "-page" :: fs.files) :=
          List.mem_append.mpr (Or.inr (List.mem_cons_self _ _))
        have hfin : (osRemove (FileName.temp fs.counter "-page") >>= fun _ =>
            cleanupPages fs.counter (List.range (env.pages inP)))
            ⟨((List.range (min (env.sepProduced (fs.calls + 1)) (env.pages inP))).map (fun (d : Nat) => FileName.page fs.counter ((d : Int) + 1))) ++ FileName.temp fs.counter "-page" :: fs.files,
             fs.counter + 1, fs.calls + 2, fs.written, fs.selects⟩ = (.ok (),
            ⟨fs.files, fs.counter + 1, fs.calls + 2, fs.written, fs.selects⟩) := by
          rw [M_bind_ok (osRemove_mem hmem)]
          dsimp only
          rw [pageFilter_base hok "-page"]
          rw [cleanupPages_app]
          rw [pageFilter_cleanup (min_le_right _ _) hok]
        exact tryFinallyM_eq hbody hfin
      rw [heq]
      exact ⟨rfl, Nat.le_succ _⟩
  · have heq : pdfselect env inP outP sel fs = (.error .runtimeError,
        { fs with calls := fs.calls + 1 }) := by
      unfold pdfselect
      have hinfo : pdfinfoPages env inP fs = (.error .runtimeError,
          { fs with calls := fs.calls + 1 }) := by
        unfold pdfinfoPages
        rw [M_bind_err (execute_err _ (Bool.not_eq_true _ ▸ h0))]
      rw [M_bind_err hinfo]
    rw [heq]
    exact ⟨rfl, le_refl _⟩

/-! ## Behavior of `enscript`, `File.generate` and `Book.generate` -/

theorem filter_remove_fresh_cons {fs : FS} (h : FSok fs) (suffix : String) :
    ((FileName.temp fs.counter suffix :: fs.files).filter
      (fun f => !(f = FileName.temp fs.counter suffix : Bool))) = fs.files := by
  rw [List.filter_cons]
  rw [if_neg (by simp)]
  exact filter_remove_fresh h suffix

/-- On an all-successful run, `enscript` renders and converts, logs the
output, and removes its PostScript temporary. -/
theorem enscript_ok (env : Env) (inP outP : FileName) (lang : Option String)
    (paper : Paper) (font : Option String) (margins : Option (List Int))
    (fs : FS) (h0 : env.execOk fs.calls = true)
    (h1 : env.execOk (fs.calls + 1) = true) (hok : FSok fs) :
    enscript env inP outP lang paper font margins fs = (.ok (),
      ⟨fs.files, fs.counter + 1, fs.calls + 2, fs.written ++ [outP],
       fs.selects⟩) := by
  unfold enscript
  rw [M_bind_ok (mtemp_app ".ps" _)]
  have hbody : (execute env (enscriptArgs inP.render
        (FileName.temp fs.counter ".ps").render lang paper font margins) >>= fun _ =>
      execute env ["ps2pdf", (FileName.temp fs.counter ".ps").render, outP.render] >>= fun _ =>
      markWritten outP)
      ⟨FileName.temp fs.counter ".ps" :: fs.files, fs.counter + 1, fs.calls,
       fs.written, fs.selects⟩ = (.ok (),
      ⟨FileName.temp fs.counter ".ps" :: fs.files, fs.counter + 1, fs.calls + 2,
       fs.written ++ [outP], fs.selects⟩) := by
    have he1 : execute env (enscriptArgs inP.render
        (FileName.temp fs.counter ".ps").render lang paper font margins)
        ⟨FileName.temp fs.counter ".ps" :: fs.files, fs.counter + 1, fs.calls,
         fs.written, fs.selects⟩ = (.ok (),
        ⟨FileName.temp fs.counter ".ps" :: fs.files, fs.counter + 1,
         fs.calls + 1, fs.written, fs.selects⟩) := execute_ok _ h0
    have he2 : execute env ["ps2pdf", (FileName.temp fs.counter ".ps").render,
        outP.render]
        ⟨FileName.temp fs.counter ".ps" :: fs.files, fs.counter + 1,
         fs.calls + 1, fs.written, fs.selects⟩ = (.ok (),
        ⟨FileName.temp fs.counter ".ps" :: fs.files, fs.counter + 1,
         fs.calls + 2, fs.written, fs.selects⟩) := execute_ok _ h1
    rw [M_bind_ok he1, M_bind_ok he2]
    rfl
  have hfin : osRemove (FileName.temp fs.counter ".ps")
      ⟨FileName.temp fs.counter ".ps" :: fs.files, fs.counter + 1, fs.calls + 2,
       fs.written ++ [outP], fs.selects⟩ = (.ok (),
      ⟨fs.files, fs.counter + 1, fs.calls + 2, fs.written ++ [outP],
       fs.selects⟩) := by
    rw [osRemove_mem (List.mem_cons_self _ _)]
    dsimp only
    rw [filter_remove_fresh_cons hok ".ps"]
  exact tryFinallyM_eq hbody hfin

/-- Under every oracle, `enscript` removes its PostScript temporary. -/
theorem frame_enscript (env : Env) (inP outP : FileName) (lang : Option String)
    (paper : Paper) (font : Option String) (margins : Option (List Int)) :
    frame (enscript env inP outP lang paper font margins) := by
  intro fs hok
  unfold enscript
  rw [M_bind_ok (mtemp_app ".ps" _)]
  have hframe : frame ((execute env (enscriptArgs inP.render
        (FileName.temp fs.counter ".ps").render lang paper font margins) >>= fun _ =>
      execute env ["ps2pdf", (FileName.temp fs.counter ".ps").render, outP.render] >>= fun _ =>
      markWritten outP)) :=
    frame_bind (frame_execute _ _) (fun _ =>
      frame_bind (frame_execute _ _) (fun _ => frame_markWritten _))
  rcases hb : (execute env (enscriptArgs inP.render
        (FileName.temp fs.counter ".ps").render lang paper font margins) >>= fun _ =>
      execute env ["ps2pdf", (FileName.temp fs.counter ".ps").render, outP.render] >>= fun _ =>
      markWritten outP)
      ⟨FileName.temp fs.counter ".ps" :: fs.files, fs.counter + 1, fs.calls,
       fs.written, fs.selects⟩ with ⟨res, fs3⟩
  have h3 : fs3.files = FileName.temp fs.counter ".ps" :: fs.files ∧
      fs.counter + 1 ≤ fs3.counter := by
    have := hframe _ (FSok_mtemp hok ".ps")
    rw [hb] at this
    exact this
  have hfin : osRemove (FileName.temp fs.counter ".ps") fs3 = (.ok (),
      { fs3 with files := fs.files }) := by
    rw [osRemove_mem (by rw [h3.1]; exact List.mem_cons_self _ _)]
    rw [show fs3.files.filter (fun f => !(f = FileName.temp fs.counter ".ps" : Bool)) = fs.files from by rw [h3.1]; exact filter_remove_fresh_cons hok ".ps"]
  rw [tryFinallyM_eq hb hfin]
  exact ⟨rfl, le_trans (Nat.le_succ _) h3.2⟩

/-- On an all-successful run, `File.generate` writes the single content
PDF to `out` and returns the 1-tuple `(out,)`; temporaries are cleaned. -/
theorem fileGenerate_ok (env : Env) (fk : FileK) (out : FileName) (fs : FS)
    (hex : ∀ i, env.execOk i = true) (hok : FSok fs) :
    ∃ c k, fileGenerate env fk out fs = (.ok [out],
      ⟨fs.files, c, k, fs.written ++ [out], fs.selects⟩) ∧ fs.counter ≤ c := by
  cases fk with
  | pdfF fd =>
    refine ⟨fs.counter, fs.calls + 1, ?_, le_refl _⟩
    show (pdfjam env (.user fd.path) out none fd.raw_selection false fd.margins
        ⟨"a5"⟩ >>= fun _ => pure [out]) fs = _
    have hj : pdfjam env (.user fd.path) out none fd.raw_selection false
        fd.margins ⟨"a5"⟩ fs = (.ok (),
        ⟨fs.files, fs.counter, fs.calls + 1, fs.written ++ [out], fs.selects⟩) := by
      unfold pdfjam
      rw [M_bind_ok (execute_ok _ (hex fs.calls))]
      rfl
    rw [M_bind_ok hj]
    rfl
  | cppF fd =>
    refine ⟨fs.counter + 1, fs.calls + 2, ?_, Nat.le_succ _⟩
    show (enscript env (.user fd.path) out (some "cpp") ⟨"a5"⟩ (some "Courier8")
        fd.margins >>= fun _ => pure [out]) fs = _
    rw [M_bind_ok (enscript_ok env _ out _ _ _ _ fs (hex fs.calls)
      (hex (fs.calls + 1)) hok)]
    rfl

/-- Lemma: `File.generate` can only succeed with the 1-tuple `(out,)`. -/
theorem fileGenerate_shape {env : Env} {fk : FileK} {out : FileName} {fs fs1 : FS}
    {r : List FileName} (h : fileGenerate env fk out fs = (.ok r, fs1)) :
    r = [out] := by
  cases fk with
  | pdfF fd => exact M_seq_pure_ok h
  | cppF fd => exact M_seq_pure_ok h

/-- Under every oracle, `File.generate` leaves the temporary files
unchanged. -/
theorem frame_fileGenerate (env : Env) (fk : FileK) (out : FileName) :
    frame (fileGenerate env fk out) := by
  cases fk with
  | pdfF fd =>
    exact frame_bind (frame_pdfjam _ _ _ _ _ _ _ _) (fun _ => frame_pure _)
  | cppF fd =>
    exact frame_bind (frame_enscript _ _ _ _ _ _ _) (fun _ => frame_pure _)

theorem assertM_pos {c : Prop} [Decidable c] (h : c) (fs : FS) :
    assertM c fs = (.ok (), fs) := by
  unfold assertM
  rw [if_pos h]
  rfl

theorem assertM_neg {c : Prop} [Decidable c] (h : ¬c) (fs : FS) :
    assertM c fs = (.error .assertError, fs) := by
  unfold assertM
  rw [if_neg h]
  rfl

theorem frame_assertM (c : Prop) [Decidable c] : frame (assertM c) :=
  frame_ite c (frame_pure ()) (frame_throw _)

/-- On an all-successful run, `Book.generate` produces the imposed booklet
at `path`, returns `(path,)`, and removes the temporary content PDF. -/
theorem bookGenerate_ok (env : Env) (fk : FileK) (path : FileName) (fs : FS)
    (hex : ∀ i, env.execOk i = true) (hok : FSok fs) :
    ∃ c k, bookGenerate env fk path fs = (.ok [path],
      ⟨fs.files, c, k, fs.written ++ [.temp fs.counter ".pdf", path],
       fs.selects⟩) ∧ fs.counter + 1 ≤ c := by
  unfold bookGenerate
  rw [M_bind_ok (mtemp_app ".pdf" _)]
  obtain ⟨c, k, hgen, hc⟩ := fileGenerate_ok env fk (.temp fs.counter ".pdf")
    ⟨FileName.temp fs.counter ".pdf" :: fs.files, fs.counter + 1, fs.calls,
     fs.written, fs.selects⟩ hex (FSok_mtemp hok ".pdf")
  have hpb : pdfbook env (.temp fs.counter ".pdf") path true true ⟨"a4"⟩
      ⟨FileName.temp fs.counter ".pdf" :: fs.files, c, k,
       fs.written ++ [.temp fs.counter ".pdf"], fs.selects⟩ = (.ok (),
      ⟨FileName.temp fs.counter ".pdf" :: fs.files, c, k + 1,
       (fs.written ++ [.temp fs.counter ".pdf"]) ++ [path], fs.selects⟩) := by
    unfold pdfbook
    have he : execute env (["pdfbook"] ++ ["--short-edge"] ++ ["--frame", "true"] ++
        ["--paper", Paper.latex ⟨"a4"⟩] ++ [(FileName.temp fs.counter ".pdf").render] ++
        ["-o", path.render])
        ⟨FileName.temp fs.counter ".pdf" :: fs.files, c, k,
         fs.written ++ [.temp fs.counter ".pdf"], fs.selects⟩ = (.ok (),
        ⟨FileName.temp fs.counter ".pdf" :: fs.files, c, k + 1,
         fs.written ++ [.temp fs.counter ".pdf"], fs.selects⟩) := execute_ok _ (hex k)
    rw [if_pos rfl, if_pos rfl]
    rw [M_bind_ok he]
    rfl
  have hbody : (fileGenerate env fk (.temp fs.counter ".pdf") >>= fun res =>
      assertM (res = [FileName.temp fs.counter ".pdf"]) >>= fun _ =>
      pdfbook env (.temp fs.counter ".pdf") path true true ⟨"a4"⟩)
      ⟨FileName.temp fs.counter ".pdf" :: fs.files, fs.counter + 1, fs.calls,
       fs.written, fs.selects⟩ = (.ok (),
      ⟨FileName.temp fs.counter ".pdf" :: fs.files, c, k + 1,
       (fs.written ++ [.temp fs.counter ".pdf"]) ++ [path], fs.selects⟩) := by
    rw [M_bind_ok hgen]
    dsimp only
    rw [M_bind_ok (assertM_pos rfl _)]
    exact hpb
  have hfin : osRemove (FileName.temp fs.counter ".pdf")
      ⟨FileName.temp fs.counter ".pdf" :: fs.files, c, k + 1,
       (fs.written ++ [.temp fs.counter ".pdf"]) ++ [path], fs.selects⟩ = (.ok (),
      ⟨fs.files, c, k + 1,
       (fs.written ++ [.temp fs.counter ".pdf"]) ++ [path], fs.selects⟩) := by
    rw [osRemove_mem (List.mem_cons_self _ _)]
    dsimp only
    rw [filter_remove_fresh_cons hok ".pdf"]
  refine ⟨c, k + 1, ?_, hc⟩
  rw [M_bind_ok (tryFinallyM_eq hbody hfin)]
  rw [M_pure_app]
  simp [List.append_assoc]

/-- Lemma: `Book.generate` can only succeed with the 1-tuple `(path,)`. -/
theorem bookGenerate_shape {env : Env} {fk : FileK} {path : FileName}
    {fs fs1 : FS} {r : List FileName}
    (h : bookGenerate env fk path fs = (.ok r, fs1)) : r = [path] := by
  unfold bookGenerate at h
  rw [M_bind_ok (mtemp_app ".pdf" _)] at h
  exact M_seq_pure_ok h

/-- Under every oracle, `Book.generate` removes its temporary content
PDF. -/
theorem frame_bookGenerate (env : Env) (fk : FileK) (path : FileName) :
    frame (bookGenerate env fk path) := by
  intro fs hok
  unfold bookGenerate
  rw [M_bind_ok (mtemp_app ".pdf" _)]
  have hframe : frame (fileGenerate env fk (.temp fs.counter ".pdf") >>= fun res =>
      assertM (res = [FileName.temp fs.counter ".pdf"]) >>= fun _ =>
      pdfbook env (.temp fs.counter ".pdf") path true true ⟨"a4"⟩) :=
    frame_bind (frame_fileGenerate _ _ _) (fun res =>
      frame_bind (frame_assertM _) (fun _ => frame_pdfbook _ _ _ _ _ _))
  rcases hb : (fileGenerate env fk (.temp fs.counter ".pdf") >>= fun res =>
      assertM (res = [FileName.temp fs.counter ".pdf"]) >>= fun _ =>
      pdfbook env (.temp fs.counter ".pdf") path true true ⟨"a4"⟩)
      ⟨FileName.temp fs.counter ".pdf" :: fs.files, fs.counter + 1, fs.calls,
       fs.written, fs.selects⟩ with ⟨res, fs3⟩
  have h3 : fs3.files = FileName.temp fs.counter ".pdf" :: fs.files ∧
      fs.counter + 1 ≤ fs3.counter := by
    have := hframe _ (FSok_mtemp hok ".pdf")
    rw [hb] at this
    exact this
  have hfin : osRemove (FileName.temp fs.counter ".pdf") fs3 = (.ok (),
      { fs3 with files := fs.files }) := by
    rw [osRemove_mem (by rw [h3.1]; exact List.mem_cons_self _ _)]
    rw [show fs3.files.filter (fun f => !(f = FileName.temp fs.counter ".pdf" : Bool)) = fs.files from by rw [h3.1]; exact filter_remove_fresh_cons hok ".pdf"]
  have htf := tryFinallyM_eq hb hfin
  cases res with
  | ok v =>
    rw [M_bind_ok htf]
    exact ⟨rfl, le_trans (Nat.le_succ _) h3.2⟩
  | error e =>
    rw [M_bind_err htf]
    exact ⟨rfl, le_trans (Nat.le_succ _) h3.2⟩

/-! ## Behavior of `SinglePageBook.generate` -/

/-- On an all-successful run with an even booklet page count `N`,
`SinglePageBook.generate` produces exactly two `pdfselect` extractions
from the temporary booklet: pages `range(1, N, 2)` to the `-odd` path and
pages `range(N, 1, -2)` to the `-even` path, returns both derived paths,
and removes the temporary booklet PDF. -/
theorem spb_ok (env : Env) (fk : FileK) (path : String) (op ep : Option String)
    (fs : FS) (hex : ∀ i, env.execOk i = true) (hok : FSok fs)
    (heven : env.pages (.temp fs.counter ".pdf") % 2 = 0) :
    ∃ c k, singlePageBookGenerate env fk path op ep fs = (.ok
      [.user (subMark "-odd" path), .user (subMark "-even" path)],
      ⟨fs.files, c, k,
       fs.written ++ [.temp (fs.counter + 1) ".pdf", .temp fs.counter ".pdf", .user (subMark "-odd" path), .user (subMark "-even" path)],
       fs.selects ++ [(.temp fs.counter ".pdf", .user (subMark "-odd" path), pyRange 1 ((env.pages (.temp fs.counter ".pdf") : Nat) : Int) 2), (.temp fs.counter ".pdf", .user (subMark "-even" path), pyRange ((env.pages (.temp fs.counter ".pdf") : Nat) : Int) 1 (-2))]⟩) ∧
      fs.counter + 1 ≤ c := by
  unfold singlePageBookGenerate
  rw [M_bind_ok (mtemp_app ".pdf" _)]
  obtain ⟨c, k, hgen, hc⟩ := bookGenerate_ok env fk (.temp fs.counter ".pdf")
    ⟨FileName.temp fs.counter ".pdf" :: fs.files, fs.counter + 1, fs.calls,
     fs.written, fs.selects⟩ hex (FSok_mtemp hok ".pdf")
  have hok3 : FSok ⟨FileName.temp fs.counter ".pdf" :: fs.files, c, k + 1,
      fs.written ++ [.temp (fs.counter + 1) ".pdf", .temp fs.counter ".pdf"],
      fs.selects⟩ :=
    FSok_of (FSok_mtemp hok ".pdf") rfl (le_trans (Nat.le_succ _) hc)
  have hsel1 := pdfselect_ok env (.temp fs.counter ".pdf")
    (.user (subMark "-odd" path))
    (pyRange 1 ((env.pages (.temp fs.counter ".pdf") : Nat) : Int) 2)
    ⟨FileName.temp fs.counter ".pdf" :: fs.files, c, k + 1,
     fs.written ++ [.temp (fs.counter + 1) ".pdf", .temp fs.counter ".pdf"],
     fs.selects⟩ (hex _) (hex _) (hex _) hok3
  have hok5 : FSok ⟨FileName.temp fs.counter ".pdf" :: fs.files, c + 1, k + 4,
      (fs.written ++ [.temp (fs.counter + 1) ".pdf", .temp fs.counter ".pdf"]) ++ [.user (subMark "-odd" path)],
      fs.selects ++ [(.temp fs.counter ".pdf", .user (subMark "-odd" path), pyRange 1 ((env.pages (.temp fs.counter ".pdf") : Nat) : Int) 2)]⟩ :=
    FSok_of (FSok_mtemp hok ".pdf") rfl (le_trans (le_trans (Nat.le_succ _) hc) (Nat.le_succ _))
  have hsel2 := pdfselect_ok env (.temp fs.counter ".pdf")
    (.user (subMark "-even" path))
    (pyRange ((env.pages (.temp fs.counter ".pdf") : Nat) : Int) 1 (-2))
    ⟨FileName.temp fs.counter ".pdf" :: fs.files, c + 1, k + 4,
     (fs.written ++ [.temp (fs.counter + 1) ".pdf", .temp fs.counter ".pdf"]) ++ [.user (subMark "-odd" path)],
     fs.selects ++ [(.temp fs.counter ".pdf", .user (subMark "-odd" path), pyRange 1 ((env.pages (.temp fs.counter ".pdf") : Nat) : Int) 2)]⟩
    (hex _) (hex _) (hex _) hok5
  have hbody : (bookGenerate env fk (.temp fs.counter ".pdf") >>= fun res =>
      assertM (res = [FileName.temp fs.counter ".pdf"]) >>= fun _ =>
      pdfinfoPages env (.temp fs.counter ".pdf") >>= fun pages_count =>
      assertM (pages_count % 2 = 0) >>= fun _ =>
      pdfselect env (.temp fs.counter ".pdf") (.user (subMark "-odd" path))
        (pyRange 1 (pages_count : Int) 2) >>= fun _ =>
      pdfselect env (.temp fs.counter ".pdf") (.user (subMark "-even" path))
        (pyRange (pages_count : Int) 1 (-2)))
      ⟨FileName.temp fs.counter ".pdf" :: fs.files, fs.counter + 1, fs.calls,
       fs.written, fs.selects⟩ = (.ok (),
      ⟨FileName.temp fs.counter ".pdf" :: fs.files, c + 2, k + 7,
       ((fs.written ++ [.temp (fs.counter + 1) ".pdf", .temp fs.counter ".pdf"]) ++ [.user (subMark "-odd" path)]) ++ [.user (subMark "-even" path)],
       (fs.selects ++ [(.temp fs.counter ".pdf", .user (subMark "-odd" path), pyRange 1 ((env.pages (.temp fs.counter ".pdf") : Nat) : Int) 2)]) ++ [(.temp fs.counter ".pdf", .user (subMark "-even" path), pyRange ((env.pages (.temp fs.counter ".pdf") : Nat) : Int) 1 (-2))]⟩) := by
    rw [M_bind_ok hgen]
    dsimp only
    rw [M_bind_ok (assertM_pos rfl _)]
    rw [M_bind_ok (pdfinfoPages_ok (.temp fs.counter ".pdf") (hex k))]
    dsimp only
    rw [M_bind_ok (assertM_pos heven _)]
    rw [M_bind_ok hsel1]
    exact hsel2
  have hfin : osRemove (FileName.temp fs.counter ".pdf")
      ⟨FileName.temp fs.counter ".pdf" :: fs.files, c + 2, k + 7,
       ((fs.written ++ [.temp (fs.counter + 1) ".pdf", .temp fs.counter ".pdf"]) ++ [.user (subMark "-odd" path)]) ++ [.user (subMark "-even" path)],
       (fs.selects ++ [(.temp fs.counter ".pdf", .user (subMark "-odd" path), pyRange 1 ((env.pages (.temp fs.counter ".pdf") : Nat) : Int) 2)]) ++ [(.temp fs.counter ".pdf", .user (subMark "-even" path), pyRange ((env.pages (.temp fs.counter ".pdf") : Nat) : Int) 1 (-2))]⟩ = (.ok (),
      ⟨fs.files, c + 2, k + 7,
       ((fs.written ++ [.temp (fs.counter + 1) ".pdf", .temp fs.counter ".pdf"]) ++ [.user (subMark "-odd" path)]) ++ [.user (subMark "-even" path)],
       (fs.selects ++ [(.temp fs.counter ".pdf", .user (subMark "-odd" path), pyRange 1 ((env.pages (.temp fs.counter ".pdf") : Nat) : Int) 2)]) ++ [(.temp fs.counter ".pdf", .user (subMark "-even" path), pyRange ((env.pages (.temp fs.counter ".pdf") : Nat) : Int) 1 (-2))]⟩) := by
    rw [osRemove_mem (List.mem_cons_self _ _)]
    dsimp only
    rw [filter_remove_fresh_cons hok ".pdf"]
  refine ⟨c + 2, k + 7, ?_, le_trans (le_trans (Nat.le_succ _) hc) (Nat.le_add_right c 2)⟩
  rw [M_bind_ok (tryFinallyM_eq hbody hfin)]
  rw [M_pure_app]
  simp [List.append_assoc]

/-- With an odd booklet page count, `SinglePageBook.generate` fails on the
evenness assertion: no `pdfselect` extraction is recorded, no output file
is written at either derived path (only the two temporary PDFs were ever
written by the tools), and the temporary booklet PDF is still removed. -/
theorem spb_odd (env : Env) (fk : FileK) (path : String) (op ep : Option String)
    (fs : FS) (hex : ∀ i, env.execOk i = true) (hok : FSok fs)
    (hodd : env.pages (.temp fs.counter ".pdf") % 2 = 1) :
    ∃ c k, singlePageBookGenerate env fk path op ep fs = (.error .assertError,
      ⟨fs.files, c, k,
       fs.written ++ [.temp (fs.counter + 1) ".pdf", .temp fs.counter ".pdf"],
       fs.selects⟩) ∧ fs.counter + 1 ≤ c := by
  unfold singlePageBookGenerate
  rw [M_bind_ok (mtemp_app ".pdf" _)]
  obtain ⟨c, k, hgen, hc⟩ := bookGenerate_ok env fk (.temp fs.counter ".pdf")
    ⟨FileName.temp fs.counter ".pdf" :: fs.files, fs.counter + 1, fs.calls,
     fs.written, fs.selects⟩ hex (FSok_mtemp hok ".pdf")
  have hbody : (bookGenerate env fk (.temp fs.counter ".pdf") >>= fun res =>
      assertM (res = [FileName.temp fs.counter ".pdf"]) >>= fun _ =>
      pdfinfoPages env (.temp fs.counter ".pdf") >>= fun pages_count =>
      assertM (pages_count % 2 = 0) >>= fun _ =>
      pdfselect env (.temp fs.counter ".pdf") (.user (subMark "-odd" path))
        (pyRange 1 (pages_count : Int) 2) >>= fun _ =>
      pdfselect env (.temp fs.counter ".pdf") (.user (subMark "-even" path))
        (pyRange (pages_count : Int) 1 (-2)))
      ⟨FileName.temp fs.counter ".pdf" :: fs.files, fs.counter + 1, fs.calls,
       fs.written, fs.selects⟩ = (.error .assertError,
      ⟨FileName.temp fs.counter ".pdf" :: fs.files, c, k + 1,
       fs.written ++ [.temp (fs.counter + 1) ".pdf", .temp fs.counter ".pdf"],
       fs.selects⟩) := by
    rw [M_bind_ok hgen]
    dsimp only
    rw [M_bind_ok (assertM_pos rfl _)]
    rw [M_bind_ok (pdfinfoPages_ok (.temp fs.counter ".pdf") (hex k))]
    dsimp only
    rw [M_bind_err (assertM_neg (by omega) _)]
  have hfin : osRemove (FileName.temp fs.counter ".pdf")
      ⟨FileName.temp fs.counter ".pdf" :: fs.files, c, k + 1,
       fs.written ++ [.temp (fs.counter + 1) ".pdf", .temp fs.counter ".pdf"],
       fs.selects⟩ = (.ok (),
      ⟨fs.files, c, k + 1,
       fs.written ++ [.temp (fs.counter + 1) ".pdf", .temp fs.counter ".pdf"],
       fs.selects⟩) := by
    rw [osRemove_mem (List.mem_cons_self _ _)]
    dsimp only
    rw [filter_remove_fresh_cons hok ".pdf"]
  refine ⟨c, k + 1, ?_, le_trans (Nat.le_succ _) hc⟩
  rw [M_bind_err (tryFinallyM_eq hbody hfin)]

/-- Under every oracle, `SinglePageBook.generate` removes its temporary
booklet PDF. -/
theorem frame_spb (env : Env) (fk : FileK) (path : String)
    (op ep : Option String) :
    frame (singlePageBookGenerate env fk path op ep) := by
  intro fs hok
  unfold singlePageBookGenerate
  rw [M_bind_ok (mtemp_app ".pdf" _)]
  have hframe : frame (bookGenerate env fk (.temp fs.counter ".pdf") >>= fun res =>
      assertM (res = [FileName.temp fs.counter ".pdf"]) >>= fun _ =>
      pdfinfoPages env (.temp fs.counter ".pdf") >>= fun pages_count =>
      assertM (pages_count % 2 = 0) >>= fun _ =>
      pdfselect env (.temp fs.counter ".pdf") (.user (subMark "-odd" path))
        (pyRange 1 (pages_count : Int) 2) >>= fun _ =>
      pdfselect env (.temp fs.counter ".pdf") (.user (subMark "-even" path))
        (pyRange (pages_count : Int) 1 (-2))) :=
    frame_bind (frame_bookGenerate _ _ _) (fun res =>
      frame_bind (frame_assertM _) (fun _ =>
        frame_bind (frame_pdfinfoPages _ _) (fun pages_count =>
          frame_bind (frame_assertM _) (fun _ =>
            frame_bind (frame_pdfselect _ _ _ _) (fun _ =>
              frame_pdfselect _ _ _ _)))))
  rcases hb : (bookGenerate env fk (.temp fs.counter ".pdf") >>= fun res =>
      assertM (res = [FileName.temp fs.counter ".pdf"]) >>= fun _ =>
      pdfinfoPages env (.temp fs.counter ".pdf") >>= fun pages_count =>
      assertM (pages_count % 2 = 0) >>= fun _ =>
      pdfselect env (.temp fs.counter ".pdf") (.user (subMark "-odd" path))
        (pyRange 1 (pages_count : Int) 2) >>= fun _ =>
      pdfselect env (.temp fs.counter ".pdf") (.user (subMark "-even" path))
        (pyRange (pages_count : Int) 1 (-2)))
      ⟨FileName.temp fs.counter ".pdf" :: fs.files, fs.counter + 1, fs.calls,
       fs.written, fs.selects⟩ with ⟨res, fs3⟩
  have h3 : fs3.files = FileName.temp fs.counter ".pdf" :: fs.files ∧
      fs.counter + 1 ≤ fs3.counter := by
    have := hframe _ (FSok_mtemp hok ".pdf")
    rw [hb] at this
    exact this
  have hfin : osRemove (FileName.temp fs.counter ".pdf") fs3 = (.ok (),
      { fs3 with files := fs.files }) := by
    rw [osRemove_mem (by rw [h3.1]; exact List.mem_cons_self _ _)]
    rw [show fs3.files.filter (fun f => !(f = FileName.temp fs.counter ".pdf" : Bool)) = fs.files from by rw [h3.1]; exact filter_remove_fresh_cons hok ".pdf"]
  have htf := tryFinallyM_eq hb hfin
  cases res with
  | ok v =>
    rw [M_bind_ok htf]
    exact ⟨rfl, le_trans (Nat.le_succ _) h3.2⟩
  | error e =>
    rw [M_bind_err htf]
    exact ⟨rfl, le_trans (Nat.le_succ _) h3.2⟩

/-! ## Closed forms of the page selections and of the path derivations -/

theorem pyRangeLen_odd (N : Nat) : pyRangeLen 1 (N : Int) 2 = N / 2 := by
  unfold pyRangeLen
  norm_num
  omega

theorem pyRangeLen_even (N : Nat) : pyRangeLen (N : Int) 1 (-2) = N / 2 := by
  unfold pyRangeLen
  norm_num
  omega

/-- Closed form: `range(1, N, 2)` is the ascending list `1, 3, …` of length `N / 2`. -/
theorem pyRange_odd (N : Nat) :
    pyRange 1 (N : Int) 2 = (List.range (N / 2)).map (fun (i : Nat) => (2 * i + 1 : Int)) := by
  unfold pyRange
  rw [pyRangeLen_odd]
  apply List.map_congr_left
  intro i _
  omega

/-- Closed form: `range(N, 1, -2)` is the descending list `N, N - 2, …` of length
`N / 2`. -/
theorem pyRange_even (N : Nat) :
    pyRange (N : Int) 1 (-2) = (List.range (N / 2)).map (fun (i : Nat) => ((N : Int) - 2 * i)) := by
  unfold pyRange
  rw [pyRangeLen_even]
  apply List.map_congr_left
  intro i _
  omega

theorem pyRange_odd_length (N : Nat) : (pyRange 1 (N : Int) 2).length = N / 2 := by
  rw [pyRange_odd]
  simp

theorem pyRange_even_length (N : Nat) : (pyRange (N : Int) 1 (-2)).length = N / 2 := by
  rw [pyRange_even]
  simp

theorem lastDotSplit_none {l : List Char} (h : '.' ∉ l) : lastDotSplit l = none := by
  induction l with
  | nil => rfl
  | cons c cs ih =>
    rw [lastDotSplit]
    rw [ih (fun hm => h (List.mem_cons_of_mem _ hm))]
    exact if_neg (fun he => h (List.mem_cons.mpr (Or.inl he.symm)))

/-- The last-dot decomposition of `s ++ "." ++ e` with a dot-free `e`. -/
theorem lastDotSplit_append (s : List Char) {e : List Char} (h : '.' ∉ e) :
    lastDotSplit (s ++ '.' :: e) = some (s, '.' :: e) := by
  induction s with
  | nil =>
    show lastDotSplit ('.' :: e) = _
    rw [lastDotSplit, lastDotSplit_none h]
    rw [if_pos rfl]
  | cons c m ih =>
    show lastDotSplit (c :: (m ++ '.' :: e)) = _
    rw [lastDotSplit, ih]

theorem string_toList_append (a b : String) :
    (a ++ b).toList = a.toList ++ b.toList := rfl

theorem string_toList_split (s e : String) :
    (s ++ "." ++ e).toList = s.toList ++ '.' :: e.toList := by
  rw [string_toList_append, string_toList_append, List.append_assoc]
  rfl

/-- Model of `re.sub(r"(.*)(\.[^.]*)", ...)` on a path of the shape
`stem.extension` inserts the mark before the final extension. -/
theorem subMark_insert (m s : String) {e : String} (h : '.' ∉ e.toList) :
    subMark m (s ++ "." ++ e) = s ++ m ++ "." ++ e := by
  unfold subMark
  rw [string_toList_split, lastDotSplit_append _ h]
  have h4 : (s ++ m ++ "." ++ e).toList = s.toList ++ m.toList ++ '.' :: e.toList := by
    rw [string_toList_append, string_toList_append, string_toList_append]
    rw [List.append_assoc]
    rfl
  calc (s.toList ++ m.toList ++ '.' :: e.toList).asString
      = ((s ++ m ++ "." ++ e).toList).asString := by rw [h4]
    _ = s ++ m ++ "." ++ e := rfl

/-- The default-output rewrite on a path of the shape `stem.extension`
replaces the extension with `-book.pdf`. -/
theorem mainOutputName_split (s : String) {e : String} (h : '.' ∉ e.toList) :
    mainOutputName (s ++ "." ++ e) = s ++ "-book.pdf" := by
  unfold mainOutputName
  rw [string_toList_split, lastDotSplit_append _ h]
  rfl

/-! ## Construction of `File` objects -/

/-- The only error `File.__init__` raises is the margins `ValueError`. -/
theorem mkFileData_error {path : String} {sel : Option (List Int)}
    {raw : Option String} {margins : Option MarginsArg} {e : PyErr}
    (h : mkFileData path sel raw margins = .error e) : e = .valueError := by
  unfold mkFileData at h
  cases margins with
  | none => cases h
  | some m =>
    dsimp only at h
    by_cases hl : (match m with | .num x => [x, x, x, x] | .seq l => l).length ≠ 4
    · rw [if_pos hl] at h
      cases h
      rfl
    · rw [if_neg hl] at h
      cases h

/-- A successfully constructed `File` stores the effective raw selection
`raw_selection or gen_raw_selection(selection)`. -/
theorem mkFileData_ok_raw {path : String} {sel : Option (List Int)}
    {raw : Option String} {margins : Option MarginsArg} {fd : FileData}
    (h : mkFileData path sel raw margins = .ok fd) :
    fd.raw_selection = pyOrStr raw (gen_raw_selection sel) := by
  unfold mkFileData at h
  cases margins with
  | none =>
    cases h
    rfl
  | some m =>
    dsimp only at h
    by_cases hl : (match m with | .num x => [x, x, x, x] | .seq l => l).length ≠ 4
    · rw [if_pos hl] at h
      cases h
    · rw [if_neg hl] at h
      cases h
      rfl

/-- C4: margins given as a single number `M` are stored as the 4-tuple
`(M, M, M, M)`; a margins sequence whose length differs from 4 makes the
`File` constructor fail with `ValueError`. -/
theorem C4_margins_broadcast_and_length :
    (∀ (path : String) (sel : Option (List Int)) (raw : Option String)
      (mv : Int),
      (mkFileData path sel raw (some (.num mv))).map FileData.margins =
        .ok (some [mv, mv, mv, mv])) ∧
    (∀ (path : String) (sel : Option (List Int)) (raw : Option String)
      (l : List Int), l.length ≠ 4 →
      mkFileData path sel raw (some (.seq l)) = .error .valueError) := by
  constructor
  · intro path sel raw mv
    unfold mkFileData
    dsimp only
    rw [if_neg (by norm_num)]
    rfl
  · intro path sel raw l h
    unfold mkFileData
    dsimp only
    rw [if_pos h]

/-- C4 witness: margins `7` broadcast to `(7, 7, 7, 7)`; a length-3
margins vector is rejected. -/
theorem C4_witness :
    (mkFileData "a.pdf" none none (some (.num 7))).map FileData.margins =
      .ok (some [7, 7, 7, 7]) ∧
    mkFileData "a.pdf" none none (some (.seq [1, 2, 3])) = .error .valueError :=
  ⟨C4_margins_broadcast_and_length.1 "a.pdf" none none 7,
   C4_margins_broadcast_and_length.2 "a.pdf" none none [1, 2, 3] (by decide)⟩

/-- C5: constructing a source-code (`CPPFile`) object with a non-empty
page selection — structured or raw — fails with `ValueError` at
construction time (before any `generate`). -/
theorem C5_cpp_selection_rejected :
    ∀ (path : String) (sel : Option (List Int)) (raw : Option String)
      (margins : Option MarginsArg),
      ((∃ l, sel = some l ∧ l ≠ []) ∨ (∃ s, raw = some s ∧ s ≠ "")) →
      mkCppFileData path sel raw margins = .error .valueError := by
  intro path sel raw margins h
  unfold mkCppFileData
  cases hmf : mkFileData path sel raw margins with
  | error e =>
    have he : e = .valueError := mkFileData_error hmf
    subst he
    rfl
  | ok fd =>
    have hs : fd.raw_selection.isSome = true := by
      rw [mkFileData_ok_raw hmf]
      rcases h with ⟨l, hsel, -⟩ | ⟨s, hraw, hne⟩
      · subst hsel
        cases raw with
        | none => simp [pyOrStr, gen_raw_selection]
        | some s =>
          by_cases hse : s = "" <;> simp [pyOrStr, hse, gen_raw_selection]
      · subst hraw
        simp [pyOrStr, hne]
    show (if fd.raw_selection.isSome then Except.error PyErr.valueError
      else pure fd) = Except.error PyErr.valueError
    rw [if_pos (by rw [hs])]

/-- C5 witness: a `.cpp` file with structured selection `[1]` (and with a
raw selection `"2-3"`) is rejected at construction. -/
theorem C5_witness :
    mkCppFileData "a.cpp" (some [1]) none none = .error .valueError ∧
    mkCppFileData "a.cpp" none (some "2-3") none = .error .valueError :=
  ⟨C5_cpp_selection_rejected "a.cpp" (some [1]) none none
    (Or.inl ⟨[1], rfl, by decide⟩),
   C5_cpp_selection_rejected "a.cpp" none (some "2-3") none
    (Or.inr ⟨"2-3", rfl, by decide⟩)⟩

/-- C9 counterexample: a `File` constructed with BOTH a raw selection
string (the empty string) and a structured selection `[1, 2]` stores the
comma-joined structured selection `"1,2"`, not the given raw string —
Python's `or` treats the empty raw string as absent, so the claim "the
raw string is the one used" fails at this input. -/
theorem C9_counterexample :
    (mkFileData "a.pdf" (some [1, 2]) (some "") none).map FileData.raw_selection =
      .ok (some "1,2") ∧ (some "1,2" : Option String) ≠ some "" := by
  constructor
  · rfl
  · decide

/-- C9 (amended): a non-empty raw selection string takes precedence over
the structured list; an absent or EMPTY raw string falls back to the
comma-joined structured indices; the same effective selection is what a
`pdfjam` call places on its command line. -/
theorem C9_raw_precedence :
    (∀ (path : String) (l : List Int) (s : String), s ≠ "" →
      mkFileData path (some l) (some s) none = .ok ⟨path, some l, some s, none⟩) ∧
    (∀ (path : String) (l : List Int),
      mkFileData path (some l) none none =
        .ok ⟨path, some l, some (String.intercalate "," (l.map toString)), none⟩) ∧
    (∀ (path : String) (l : List Int),
      mkFileData path (some l) (some "") none =
        .ok ⟨path, some l, some (String.intercalate "," (l.map toString)), none⟩) ∧
    (∀ (inP outP : String) (sel : Option (List Int)) (s : String)
      (paper : Paper), s ≠ "" →
      pdfjamArgs inP outP sel (some s) false none paper =
        ["pdfjam", inP, s, "--paper", paper.latex, "-o", outP]) ∧
    (∀ (inP outP : String) (l : List Int) (paper : Paper),
      pdfjamArgs inP outP (some l) none false none paper =
        ["pdfjam", inP, String.intercalate "," (l.map toString),
         "--paper", paper.latex, "-o", outP]) := by
  refine ⟨?_, ?_, ?_, ?_, ?_⟩
  · intro path l s h
    unfold mkFileData
    simp [pyOrStr, h]
  · intro path l
    rfl
  · intro path l
    rfl
  · intro inP outP sel s paper h
    unfold pdfjamArgs
    simp [pyOrStr, h]
  · intro inP outP l paper
    rfl

/-- C9 witness: raw `"5-9"` wins over structured `[1, 2]`; structured
`[3, 4]` alone yields `"3,4"`, both in the stored `File` state and on the
`pdfjam` command line. -/
theorem C9_witness :
    mkFileData "a.pdf" (some [1, 2]) (some "5-9") none =
      .ok ⟨"a.pdf", some [1, 2], some "5-9", none⟩ ∧
    mkFileData "a.pdf" (some [3, 4]) none none =
      .ok ⟨"a.pdf", some [3, 4], some (String.intercalate "," ([3, 4].map toString)), none⟩ ∧
    pdfjamArgs "in.pdf" "out.pdf" (some [1, 2]) (some "5-9") false none ⟨"a5"⟩ =
      ["pdfjam", "in.pdf", "5-9", "--paper", Paper.latex ⟨"a5"⟩, "-o", "out.pdf"] :=
  ⟨C9_raw_precedence.1 "a.pdf" [1, 2] "5-9" (by decide),
   C9_raw_precedence.2.1 "a.pdf" [3, 4],
   C9_raw_precedence.2.2.2.1 "in.pdf" "out.pdf" (some [1, 2]) "5-9" ⟨"a5"⟩
    (by decide)⟩

/-- C10: `SinglePageBook.generate` ignores its `odd_path` and `even_path`
parameters entirely (it immediately overwrites them), its successful
result is always the pair of paths derived from `path`, and that
derivation inserts `-odd`/`-even` before the final extension. -/
theorem C10_parameters_ignored :
    (∀ (env : Env) (fk : FileK) (path : String) (op ep : Option String)
      (fs : FS),
      singlePageBookGenerate env fk path op ep fs =
        singlePageBookGenerate env fk path none none fs) ∧
    (∀ (env : Env) (fk : FileK) (path : String) (op ep : Option String)
      (fs fs1 : FS) (r : List FileName),
      singlePageBookGenerate env fk path op ep fs = (.ok r, fs1) →
      r = [.user (subMark "-odd" path), .user (subMark "-even" path)]) ∧
    (∀ (m s : String) {e : String}, '.' ∉ e.toList →
      subMark m (s ++ "." ++ e) = s ++ m ++ "." ++ e) := by
  refine ⟨?_, ?_, ?_⟩
  · intro env fk path op ep fs
    rfl
  · intro env fk path op ep fs fs1 r h
    unfold singlePageBookGenerate at h
    rw [M_bind_ok (mtemp_app ".pdf" _)] at h
    exact M_seq_pure_ok h
  · intro m s e h
    exact subMark_insert m s h

/-- C10 witness: the derivations at `"report-book.pdf"`, and a concrete
run showing that passing explicit `odd_path`/`even_path` arguments does
not change the outcome. -/
theorem C10_witness :
    singlePageBookGenerate envW (.pdfF ⟨"a.pdf", none, none, none⟩)
        "report-book.pdf" (some "x.pdf") (some "y.pdf") fs0 =
      singlePageBookGenerate envW (.pdfF ⟨"a.pdf", none, none, none⟩)
        "report-book.pdf" none none fs0 ∧
    subMark "-odd" ("report-book" ++ "." ++ "pdf") =
      "report-book" ++ "-odd" ++ "." ++ "pdf" :=
  ⟨C10_parameters_ignored.1 envW (.pdfF ⟨"a.pdf", none, none, none⟩)
    "report-book.pdf" (some "x.pdf") (some "y.pdf") fs0,
   C10_parameters_ignored.2.2 "-odd" "report-book" (by decide)⟩

/-! ## CLI-level claims -/

/-- C6: `--select` together with more than one input file raises
`ValueError` immediately, with the whole state untouched — no `File` is
constructed and no generation begins. -/
theorem C6_select_single_file_only :
    ∀ (env : Env) (files : List String) (dbl : Bool) (s : String)
      (margins : Option Int) (fs : FS), 1 < files.length →
      mainRun env files dbl (some s) margins fs = (.error .valueError, fs) := by
  intro env files dbl s margins fs h
  unfold mainRun
  rw [if_pos ⟨rfl, h⟩]
  rw [M_bind_err (throwM_app _ _)]

/-- C6 witness: two files with `--select` fail before any processing. -/
theorem C6_witness :
    mainRun envW ["a.pdf", "b.pdf"] false (some "1-2") none fs0 =
      (.error .valueError, fs0) :=
  C6_select_single_file_only envW ["a.pdf", "b.pdf"] false "1-2" none fs0
    (by decide)

/-- C3 counterexample: the default output name does NOT merely insert
`-book` before the final extension — it replaces the extension with
`-book.pdf`.  For the input `notes.cpp` the claim's rule would give
`notes-book.cpp`, but the code produces `notes-book.pdf`. -/
theorem C3_counterexample :
    mainOutputName "notes.cpp" = "notes-book.pdf" ∧
    mainOutputName "notes.cpp" ≠ "notes-book.cpp" := by
  constructor
  · rfl
  · decide

/-- C3 (amended): the default output name replaces the final extension of
the input path with `-book.pdf` (for `.pdf` inputs this coincides with
inserting `-book` before the extension); on input `report.pdf` the
default single-page mode prints `report-book-odd.pdf` and
`report-book-even.pdf`, and `-d` mode prints the single
`report-book.pdf`. -/
theorem C3_default_output_naming :
    (∀ (s : String) {e : String}, '.' ∉ e.toList →
      mainOutputName (s ++ "." ++ e) = s ++ "-book.pdf") ∧
    (∀ env : Env, (∀ i, env.execOk i = true) →
      env.pages (.temp 0 ".pdf") % 2 = 0 →
      (mainRun env ["report.pdf"] false none none fs0).1 =
        .ok [.user "report-book-odd.pdf", .user "report-book-even.pdf"]) ∧
    (∀ env : Env, (∀ i, env.execOk i = true) →
      (mainRun env ["report.pdf"] true none none fs0).1 =
        .ok [.user "report-book.pdf"]) := by
  refine ⟨fun s _ h => mainOutputName_split s h, ?_, ?_⟩
  · intro env hex heven
    obtain ⟨c, k, hspb, -⟩ := spb_ok env (.pdfF ⟨"report.pdf", none, none, none⟩)
      (mainOutputName "report.pdf") none none fs0 hex FSok_fs0 heven
    unfold mainRun
    rw [if_neg (by simp)]
    rw [M_bind_ok (M_pure_app () _)]
    show (mainLoop env BookKind.single none none ["report.pdf"] fs0).1 = _
    rw [mainLoop]
    rw [M_bind_ok (show liftE (get_file "report.pdf" none
      (Option.map MarginsArg.num none)) fs0 =
      (.ok (FileK.pdfF ⟨"report.pdf", none, none, none⟩), fs0) from rfl)]
    show ((singlePageBookGenerate env (FileK.pdfF ⟨"report.pdf", none, none, none⟩)
      (mainOutputName "report.pdf") none none >>= fun res =>
      mainLoop env BookKind.single none none [] >>= fun more =>
      pure (res ++ more)) fs0).1 = _
    rw [M_bind_ok hspb]
    rw [mainLoop]
    rw [M_bind_ok (M_pure_app _ _)]
    show (Except.ok ([FileName.user (subMark "-odd" (mainOutputName "report.pdf")),
      FileName.user (subMark "-even" (mainOutputName "report.pdf"))] ++ []) :
      Except PyErr (List FileName)) = _
    rfl
  · intro env hex
    obtain ⟨c, k, hbk, -⟩ := bookGenerate_ok env
      (.pdfF ⟨"report.pdf", none, none, none⟩)
      (.user (mainOutputName "report.pdf")) fs0 hex FSok_fs0
    unfold mainRun
    rw [if_neg (by simp)]
    rw [M_bind_ok (M_pure_app () _)]
    show (mainLoop env BookKind.double none none ["report.pdf"] fs0).1 = _
    rw [mainLoop]
    rw [M_bind_ok (show liftE (get_file "report.pdf" none
      (Option.map MarginsArg.num none)) fs0 =
      (.ok (FileK.pdfF ⟨"report.pdf", none, none, none⟩), fs0) from rfl)]
    show ((bookGenerate env (FileK.pdfF ⟨"report.pdf", none, none, none⟩)
      (.user (mainOutputName "report.pdf")) >>= fun res =>
      mainLoop env BookKind.double none none [] >>= fun more =>
      pure (res ++ more)) fs0).1 = _
    rw [M_bind_ok hbk]
    rw [mainLoop]
    rw [M_bind_ok (M_pure_app _ _)]
    show (Except.ok ([FileName.user (mainOutputName "report.pdf")] ++ []) :
      Except PyErr (List FileName)) = _
    rfl

/-- C3 witness: the naming rule at `report` + `.pdf`, and both pipeline
examples under an all-successful external world with 4 booklet pages. -/
theorem C3_witness :
    mainOutputName ("report" ++ "." ++ "pdf") = "report" ++ "-book.pdf" ∧
    (mainRun envW ["report.pdf"] false none none fs0).1 =
      .ok [.user "report-book-odd.pdf", .user "report-book-even.pdf"] ∧
    (mainRun envW ["report.pdf"] true none none fs0).1 =
      .ok [.user "report-book.pdf"] :=
  ⟨C3_default_output_naming.1 "report" (by decide),
   C3_default_output_naming.2.1 envW (fun _ => rfl) (by decide),
   C3_default_output_naming.2.2 envW (fun _ => rfl)⟩

/-! ## The single-page duplex split -/

/-- C1: for an even booklet page count `N`, `SinglePageBook.generate`
extracts into the odd output exactly the pages `range(1, N, 2)`, i.e. the
`N / 2` indices `1, 3, …, N - 1` in ascending order, and into the even
output exactly the pages `range(N, 1, -2)`, i.e. the `N / 2` indices
`N, N - 2, …, 2` in descending order. -/
theorem C1_single_page_split :
    ∀ (env : Env) (fk : FileK) (path : String) (op ep : Option String)
      (N : Nat), (∀ i, env.execOk i = true) →
      env.pages (.temp 0 ".pdf") = N → N % 2 = 0 →
      (∃ c k, singlePageBookGenerate env fk path op ep fs0 = (.ok
        [.user (subMark "-odd" path), .user (subMark "-even" path)],
        ⟨[], c, k,
         [.temp 1 ".pdf", .temp 0 ".pdf", .user (subMark "-odd" path),
          .user (subMark "-even" path)],
         [(.temp 0 ".pdf", .user (subMark "-odd" path), pyRange 1 (N : Int) 2),
          (.temp 0 ".pdf", .user (subMark "-even" path), pyRange (N : Int) 1 (-2))]⟩)) ∧
      pyRange 1 (N : Int) 2 =
        (List.range (N / 2)).map (fun (i : Nat) => (2 * i + 1 : Int)) ∧
      pyRange (N : Int) 1 (-2) =
        (List.range (N / 2)).map (fun (i : Nat) => ((N : Int) - 2 * i)) ∧
      (pyRange 1 (N : Int) 2).length = N / 2 ∧
      (pyRange (N : Int) 1 (-2)).length = N / 2 := by
  intro env fk path op ep N hex hN heven
  subst hN
  refine ⟨?_, pyRange_odd _, pyRange_even _, pyRange_odd_length _,
    pyRange_even_length _⟩
  obtain ⟨c, k, heq, -⟩ := spb_ok env fk path op ep fs0 hex FSok_fs0 heven
  exact ⟨c, k, heq⟩

/-- C1 witness: a 4-page booklet splits into odd pages `[1, 3]` and even
pages `[4, 2]`, whatever values are passed for the ignored parameters. -/
theorem C1_witness :
    (∃ c k, singlePageBookGenerate envW (.pdfF ⟨"in.pdf", none, none, none⟩)
        "doc.pdf" (some "zz") none fs0 = (.ok
      [.user (subMark "-odd" "doc.pdf"), .user (subMark "-even" "doc.pdf")],
      ⟨[], c, k,
       [.temp 1 ".pdf", .temp 0 ".pdf", .user (subMark "-odd" "doc.pdf"),
        .user (subMark "-even" "doc.pdf")],
       [(.temp 0 ".pdf", .user (subMark "-odd" "doc.pdf"), pyRange 1 ((4 : Nat) : Int) 2),
        (.temp 0 ".pdf", .user (subMark "-even" "doc.pdf"), pyRange ((4 : Nat) : Int) 1 (-2))]⟩)) ∧
    pyRange 1 ((4 : Nat) : Int) 2 =
      (List.range (4 / 2)).map (fun (i : Nat) => (2 * i + 1 : Int)) ∧
    pyRange ((4 : Nat) : Int) 1 (-2) =
      (List.range (4 / 2)).map (fun (i : Nat) => (((4 : Nat) : Int) - 2 * i)) ∧
    (pyRange 1 ((4 : Nat) : Int) 2).length = 4 / 2 ∧
    (pyRange ((4 : Nat) : Int) 1 (-2)).length = 4 / 2 :=
  C1_single_page_split envW (.pdfF ⟨"in.pdf", none, none, none⟩) "doc.pdf"
    (some "zz") none 4 (fun _ => rfl) rfl (by decide)

/-- C2: with an odd booklet page count, `SinglePageBook.generate` fails
on the evenness assertion before writing any odd or even output (the only
files the external tools wrote are the two intermediate temporary PDFs,
no extraction was recorded), and the intermediate booklet PDF is removed
on that failure path (the final temporary-file set is empty). -/
theorem C2_odd_pages_fail_before_output :
    ∀ (env : Env) (fk : FileK) (path : String) (op ep : Option String),
      (∀ i, env.execOk i = true) → env.pages (.temp 0 ".pdf") % 2 = 1 →
      ∃ c k,
        singlePageBookGenerate env fk path op ep fs0 = (.error .assertError,
          ⟨[], c, k, [.temp 1 ".pdf", .temp 0 ".pdf"], []⟩) ∧
        (∀ s : String, FileName.user s ∉
          ([.temp 1 ".pdf", .temp 0 ".pdf"] : List FileName)) := by
  intro env fk path op ep hex hodd
  obtain ⟨c, k, heq, -⟩ := spb_odd env fk path op ep fs0 hex FSok_fs0 hodd
  refine ⟨c, k, heq, ?_⟩
  intro s
  simp

/-- C2 witness: a 3-page booklet aborts with `AssertionError`, leaves no
temporary files, records no extraction, and writes no user-path output. -/
theorem C2_witness :
    ∃ c k,
      singlePageBookGenerate envOdd (.pdfF ⟨"in.pdf", none, none, none⟩)
          "doc.pdf" none none fs0 = (.error .assertError,
        ⟨[], c, k, [.temp 1 ".pdf", .temp 0 ".pdf"], []⟩) ∧
      (∀ s : String, FileName.user s ∉
        ([.temp 1 ".pdf", .temp 0 ".pdf"] : List FileName)) :=
  C2_odd_pages_fail_before_output envOdd (.pdfF ⟨"in.pdf", none, none, none⟩)
    "doc.pdf" none none (fun _ => rfl) (by decide)

/-! ## Temporary-file cleanup (all operations) -/

/-- C8: under every oracle for the external tools — success, failure at
any process call, or partial per-page output from `pdfseparate` — each of
`enscript` (its PostScript intermediate), `pdfselect` (its per-page files
and naming-template base), `Book.generate` (its content PDF) and
`SinglePageBook.generate` (its booklet PDF) leaves the set of existing
temporary files exactly as it found it. -/
theorem C8_no_temp_leak :
    ∀ (env : Env) (fs : FS), FSok fs →
      ∀ (inP outP : FileName) (sel : List Int) (lang : Option String)
        (paper : Paper) (font : Option String) (margins : Option (List Int))
        (fk : FileK) (path : String) (op ep : Option String),
        ((enscript env inP outP lang paper font margins) fs).2.files = fs.files ∧
        ((pdfselect env inP outP sel) fs).2.files = fs.files ∧
        ((bookGenerate env fk outP) fs).2.files = fs.files ∧
        ((singlePageBookGenerate env fk path op ep) fs).2.files = fs.files := by
  intro env fs hok inP outP sel lang paper font margins fk path op ep
  exact ⟨(frame_enscript env inP outP lang paper font margins fs hok).1,
    (frame_pdfselect env inP outP sel fs hok).1,
    (frame_bookGenerate env fk outP fs hok).1,
    (frame_spb env fk path op ep fs hok).1⟩

/-- C8 witness: a world where the third and later process calls fail and
`pdfseparate` produces only one of five pages still leaks no temporary
file from any of the four operations. -/
theorem C8_witness :
    ((enscript envFail (.user "in.cpp") (.user "out.pdf") (some "cpp") ⟨"a5"⟩
      (some "Courier8") none) fs0).2.files = fs0.files ∧
    ((pdfselect envFail (.user "in.cpp") (.user "out.pdf") [1, 2]) fs0).2.files =
      fs0.files ∧
    ((bookGenerate envFail (.pdfF ⟨"a.pdf", none, none, none⟩)
      (.user "out.pdf")) fs0).2.files = fs0.files ∧
    ((singlePageBookGenerate envFail (.pdfF ⟨"a.pdf", none, none, none⟩)
      "doc.pdf" none none) fs0).2.files = fs0.files :=
  C8_no_temp_leak envFail fs0 FSok_fs0 (.user "in.cpp") (.user "out.pdf")
    [1, 2] (some "cpp") ⟨"a5"⟩ (some "Courier8") none
    (.pdfF ⟨"a.pdf", none, none, none⟩) "doc.pdf" none none

/-! ## `pdfinfo` parsing claims -/

theorem splitFirstColon_append {l1 : List Char} (h : ':' ∉ l1)
    (cs : List Char) : splitFirstColon (l1 ++ ':' :: cs) = some (l1, cs) := by
  induction l1 with
  | nil =>
    show splitFirstColon (':' :: cs) = _
    rw [splitFirstColon, if_pos rfl]
  | cons c m ih =>
    show splitFirstColon (c :: (m ++ ':' :: cs)) = _
    rw [splitFirstColon]
    rw [if_neg (fun he => h (List.mem_cons.mpr (Or.inl he.symm)))]
    rw [ih (fun hm => h (List.mem_cons_of_mem _ hm))]
    rfl

/-- A flag line whose (whitespace-stripped) value does not start with
`yes` or `no` fails the flag pattern assertion. -/
theorem parseLine_flag_bad (v : String)
    (hy : "yes".toList.isPrefixOf (v.toList.dropWhile pyIsSpace) = false)
    (hn : "no".toList.isPrefixOf (v.toList.dropWhile pyIsSpace) = false) :
    parseLine emptyDict ("Encrypted: " ++ v) = .error .assertError := by
  unfold parseLine
  have hsplit : splitFirstColon ("Encrypted: " ++ v).toList =
      some ("Encrypted".toList, ' ' :: v.toList) := by
    rw [show ("Encrypted: " ++ v).toList =
      "Encrypted".toList ++ ':' :: (' ' :: v.toList) from rfl]
    exact splitFirstColon_append (by decide) _
  rw [hsplit]
  dsimp only
  rw [show (' ' :: v.toList).dropWhile pyIsSpace = v.toList.dropWhile pyIsSpace
    from by rw [List.dropWhile_cons, if_pos (by decide)]]
  rw [if_neg (by decide)]
  rw [if_neg (by decide)]
  rw [if_pos (by decide)]
  rw [if_neg (by simp only [not_or, Bool.not_eq_true]; exact ⟨hy, hn⟩)]

/-- C7: `Pages: 12` parses to the integer page count 12; a line without
the key/value shape is skipped, so an absent `Encrypted` line leaves no
`Encrypted` key; `Pages: abc` fails the digit-pattern assertion; a flag
value that does not match the `(yes|no)` pattern fails its assertion; and
a parse can only succeed when the `Pages` field is present. -/
theorem C7_metadata_parsing :
    pdfinfoLookup ["Pages: 12", "No colon garbage line"] "Pages" =
      .ok (some (.int 12)) ∧
    pdfinfoLookup ["Pages: 12", "No colon garbage line"] "Encrypted" =
      .ok none ∧
    pdfinfoLookup ["Pages: abc"] "Pages" = .error .assertError ∧
    (∀ v : String,
      "yes".toList.isPrefixOf (v.toList.dropWhile pyIsSpace) = false →
      "no".toList.isPrefixOf (v.toList.dropWhile pyIsSpace) = false →
      pdfinfoParse ["Encrypted: " ++ v] = .error .assertError) ∧
    (∀ lines : List String, parsedHasPages lines = true) := by
  refine ⟨rfl, rfl, rfl, ?_, ?_⟩
  · intro v hy hn
    unfold pdfinfoParse
    rw [List.foldlM_cons, parseLine_flag_bad v hy hn]
    rfl
  · intro lines
    unfold parsedHasPages pdfinfoParse
    cases hf : lines.foldlM parseLine emptyDict with
    | error e => rfl
    | ok m =>
      cases hp : (m "Pages").isSome with
      | true =>
        change (match (if (m "Pages").isSome = true
          then (pure m : Except PyErr PdfDict)
          else Except.error PyErr.assertError) with
          | Except.ok mm => (mm "Pages").isSome
          | Except.error _ => true) = true
        rw [if_pos hp]
        exact hp
      | false =>
        change (match (if (m "Pages").isSome = true
          then (pure m : Except PyErr PdfDict)
          else Except.error PyErr.assertError) with
          | Except.ok mm => (mm "Pages").isSome
          | Except.error _ => true) = true
        rw [if_neg (by simp [hp])]

/-- C7 witness: the flag-pattern assertion fires on
`Encrypted: banana`. -/
theorem C7_witness :
    pdfinfoParse ["Encrypted: " ++ "banana"] = .error .assertError :=
  C7_metadata_parsing.2.2.2.1 "banana" (by decide) (by decide)
